import Mathlib

/-!
# Airlytic dashboard: filter, aggregation and CSV pipeline of `main.js`

Shallow embedding of the data functions of `src/main.js`.

Representation choices, used throughout:

* A JavaScript string is a list of characters (`Str`).
* A field of a data row holds the *string form* of the JavaScript value stored in it.
  Rows produced by `parseCSV` hold strings already.  Rows produced in code hold numbers in
  `year` and `value`; every operation of the functions embedded here reads those fields
  through `ToString` (`parseInt`, `parseFloat`, the default `sort`, `join`), and `==` and
  `Set` identity on two non-NaN numbers agree with equality of their string forms.
* Numbers are exact rationals extended with NaN and the two infinities (`JSNum`).  The
  functions named after the code add them exactly; the section on sums of doubles gives
  the same sums with every number and every sum rounded to the nearest double, and the
  statement on totals, where the order of the additions matters, is made there.
* `parseInt` returns the nearest double of the integer it reads; the year of a
  consumption record and the bounds of the year range are safe integers (magnitude below
  2^53), which print and read back exactly.
-/

namespace Airlytic

/-! ## Strings -/

/-- JavaScript string, as the list of its characters. -/
abbrev Str := List Char

/-- White space and line terminators of ECMAScript, the characters removed by `trim` and
skipped by `parseInt` and `parseFloat`. -/
def isWhiteSpace (c : Char) : Bool :=
  [0x09, 0x0A, 0x0B, 0x0C, 0x0D, 0x20, 0xA0, 0x1680, 0x2028, 0x2029, 0x202F, 0x205F,
    0x3000, 0xFEFF].contains c.toNat
  || (decide (0x2000 ≤ c.toNat) && decide (c.toNat ≤ 0x200A))

/-- String.prototype.trimStart. -/
def trimStart (s : Str) : Str := s.dropWhile isWhiteSpace

/-- String.prototype.trimEnd. -/
def trimEnd (s : Str) : Str := (s.reverse.dropWhile isWhiteSpace).reverse

/-- String.prototype.trim. -/
def trim (s : Str) : Str := trimEnd (trimStart s)

/-! ## Integers and their string form -/

/-- Value of a character as a digit in radix up to 16. -/
def digitVal (c : Char) : Option Nat :=
  if 48 ≤ c.toNat ∧ c.toNat ≤ 57 then some (c.toNat - 48)
  else if 97 ≤ c.toNat ∧ c.toNat ≤ 102 then some (c.toNat - 87)
  else if 65 ≤ c.toNat ∧ c.toNat ≤ 70 then some (c.toNat - 55)
  else none

/-- Value of a character as a digit of radix `R`, if it is one. -/
def radixDigit (R : Nat) (c : Char) : Option Nat :=
  match digitVal c with
  | some d => if d < R then some d else none
  | none => none

/-- Digits of the longest prefix of `s` made of radix-`R` digits. -/
def takeDigits (R : Nat) : Str → List Nat
  | [] => []
  | c :: cs =>
    match radixDigit R c with
    | some d => d :: takeDigits R cs
    | none => []

/-- Number denoted by a list of digits, most significant first. -/
def digitsValue (R : Nat) (ds : List Nat) : Nat :=
  ds.foldl (fun acc d => acc * R + d) 0

/-- Sign step of `parseInt` and `parseFloat`: a leading `-` or `+` is removed, `true`
for `-`. -/
def readSign : Str → Bool × Str
  | '-' :: r => (true, r)
  | '+' :: r => (false, r)
  | s => (false, s)

/-- Radix step of `parseInt` without radix argument: a leading `0x` or `0X` is removed
and selects radix 16, otherwise the radix is 10. -/
def readRadix : Str → Nat × Str
  | '0' :: 'x' :: r => (16, r)
  | '0' :: 'X' :: r => (16, r)
  | s => (10, s)

/-- Integer that `parseInt(string)` without radix reads, before it becomes a number:
leading white space is skipped, a sign is read, a `0x` or `0X` marker selects radix 16,
then the longest run of digits is read.  `none` when there is no digit. -/
def scanInt (s : Str) : Option Int :=
  let signed := readSign (trimStart s)
  let radixed := readRadix signed.2
  let ds := takeDigits radixed.1 radixed.2
  if ds.isEmpty then none
  else some (if signed.1 then - (digitsValue radixed.1 ds : Int) else (digitsValue radixed.1 ds : Int))

/-- Number of low bits of `n` that do not fit the 53-bit significand of a double
(`fuel` bounds the count). -/
def doubleShift : Nat → Nat → Nat
  | 0, _ => 0
  | fuel + 1, n => if n < 2 ^ 53 then 0 else doubleShift fuel (n / 2) + 1

/-- Natural number rounded to the nearest one that a double with unbounded exponent
holds, ties to the even significand. -/
def roundNat (n : Nat) : Nat :=
  let e := doubleShift n n
  let q := n / 2 ^ e
  let r := n % 2 ^ e
  if 2 * r > 2 ^ e ∨ (2 * r = 2 ^ e ∧ q % 2 = 1) then (q + 1) * 2 ^ e else q * 2 ^ e

/-- Number that `parseInt` returns: NaN, an infinity, or an integer that is a double.  The
sign of zero is not modelled. -/
inductive IntNum where
  | nan
  | inf (neg : Bool)
  | int (n : Int)
deriving DecidableEq

/-- The power 2^1024, written out: the least magnitude that rounds to an infinity. -/
def infinityBound : Nat :=
  179769313486231590772930519078902473361797697894230657273430081157732675805500963132708477322407536021120113879871393357658789768814416622492847430639474124377767893424865485276302219601246094119453082952085005768838150682342462881473913110540827237163350510684586298239947245938479716304835356329624224137216

/-- Number value of an integer: the nearest double, an infinity from 2^1024 on. -/
def toDouble (n : Int) : IntNum :=
  let m := roundNat n.natAbs
  if infinityBound ≤ m then IntNum.inf (decide (n < 0))
  else IntNum.int (if n < 0 then - (m : Int) else (m : Int))

/-- Global `parseInt(string)` without radix: NaN when no digit is read, otherwise the
number value of the integer read. -/
def parseInt (s : Str) : IntNum :=
  match scanInt s with
  | none => IntNum.nan
  | some n => toDouble n

/-- Character of a decimal digit. -/
def digitChar (d : Nat) : Char := Char.ofNat (48 + d)

/-- Decimal digits of `n`, least significant first (`fuel` bounds the number of digits). -/
def digitsRev : Nat → Nat → List Nat
  | 0, _ => []
  | fuel + 1, n => if n < 10 then [n] else (n % 10) :: digitsRev fuel (n / 10)

/-- Decimal numeral of a natural number. -/
def natToString (n : Nat) : Str := ((digitsRev (n + 1) n).reverse).map digitChar

/-- Number::toString on a safe integer (magnitude at most 2^53 - 1, where every integer is
a double and prints as its plain decimal numeral): an optional minus sign and the
numeral. -/
def numberToString (n : Int) : Str :=
  if n < 0 then '-' :: natToString n.natAbs else natToString n.natAbs

/-! ## Numbers -/

/-- JavaScript number: an exact rational, NaN or one of the two infinities.  A double is
such a number; `roundDouble` gives the nearest double of an exact one.  The sign of zero
is not modelled. -/
inductive JSNum where
  | fin (q : ℚ)
  | posInf
  | negInf
  | nan
deriving DecidableEq

namespace JSNum

/-- Operator `+` on two numbers, as the exact sum; `addRounded` rounds it to a double. -/
def add : JSNum → JSNum → JSNum
  | nan, _ => nan
  | _, nan => nan
  | posInf, negInf => nan
  | negInf, posInf => nan
  | posInf, _ => posInf
  | _, posInf => posInf
  | negInf, _ => negInf
  | _, negInf => negInf
  | fin a, fin b => fin (a + b)

/-- Operator `/` on two numbers, the divisor zero being the positive zero. -/
def div : JSNum → JSNum → JSNum
  | nan, _ => nan
  | _, nan => nan
  | fin a, fin b =>
    if b = 0 then (if a = 0 then nan else if 0 < a then posInf else negInf) else fin (a / b)
  | fin _, _ => fin 0
  | posInf, fin b => if b < 0 then negInf else posInf
  | negInf, fin b => if b < 0 then posInf else negInf
  | _, _ => nan

/-- ToBoolean on a number: zero and NaN are falsy. -/
def truthy : JSNum → Bool
  | fin q => decide (q ≠ 0)
  | nan => false
  | _ => true

/-- Expression `x || 0` on a number `x`. -/
def orZero (x : JSNum) : JSNum := if x.truthy then x else fin 0

instance : Zero JSNum := ⟨fin 0⟩

instance : Add JSNum := ⟨add⟩

instance : AddCommMonoid JSNum where
  add_assoc a b c := by
    show add (add a b) c = add a (add b c)
    cases a <;> cases b <;> cases c <;> first | rfl | (simp only [add]; congr 1; ring)
  zero_add a := by
    show add (fin 0) a = a
    cases a <;> first | rfl | (simp only [add]; congr 1; ring)
  add_zero a := by
    show add a (fin 0) = a
    cases a <;> first | rfl | (simp only [add]; congr 1; ring)
  add_comm a b := by
    show add a b = add b a
    cases a <;> cases b <;> first | rfl | (simp only [add]; congr 1; ring)
  nsmul := nsmulRec

end JSNum

/-- Test that `p` is an initial segment of `s`. -/
def startsWith : Str → Str → Bool
  | [], _ => true
  | _ :: _, [] => false
  | a :: p, b :: s => a == b && startsWith p s

/-- Exponent part after the exponent indicator: an optional sign and at least one digit;
`none` when no digit follows, in which case the indicator is not part of the literal. -/
def readExponent (s : Str) : Option Int :=
  let signed := readSign s
  let ds := takeDigits 10 signed.2
  if ds.isEmpty then none
  else some (if signed.1 then - (digitsValue 10 ds : Int) else (digitsValue 10 ds : Int))

/-- Result of scanning the longest decimal literal at the start of a string: nothing, an
infinity, or sign, digits and power of ten. -/
inductive FloatLit where
  | none
  | inf (neg : Bool)
  | dec (neg : Bool) (mant : Nat) (exp : Int)
deriving DecidableEq

/-- Scanner of `parseFloat`: after leading white space and a sign, `Infinity`, or
digits, an optional point with digits (a digit is needed on one side of the point), and
an optional exponent part. -/
def scanFloat (s : Str) : FloatLit :=
  let signed := readSign (trimStart s)
  let body := signed.2
  if startsWith "Infinity".toList body then FloatLit.inf signed.1
  else
    let ip := takeDigits 10 body
    let r1 := body.drop ip.length
    let pointed : List Nat × Str :=
      match r1 with
      | '.' :: r => (takeDigits 10 r, r.drop (takeDigits 10 r).length)
      | _ => ([], r1)
    if ip.isEmpty && pointed.1.isEmpty then FloatLit.none
    else
      let ex : Int :=
        match pointed.2 with
        | 'e' :: r => (readExponent r).getD 0
        | 'E' :: r => (readExponent r).getD 0
        | _ => 0
      FloatLit.dec signed.1 (digitsValue 10 (ip ++ pointed.1)) (ex - pointed.1.length)

/-- Number denoted by a scanned literal. -/
def FloatLit.toNum : FloatLit → JSNum
  | FloatLit.none => JSNum.nan
  | FloatLit.inf neg => if neg then JSNum.negInf else JSNum.posInf
  | FloatLit.dec neg mant exp =>
    JSNum.fin ((if neg then -1 else 1) * (mant : ℚ) * (10 : ℚ) ^ exp)

/-- Global `parseFloat(string)`, as the exact value of the literal read;
`parseFloatRounded` rounds it to a double. -/
def parseFloat (s : Str) : JSNum := (scanFloat s).toNum

/-! ## Arrays of strings: Set and sort -/

/-- Array of the elements of `new Set(xs)`: the first occurrence of each value, in
insertion order. -/
def distinct (xs : List Str) : List Str :=
  xs.foldl (fun acc x => if acc.contains x then acc else acc ++ [x]) []

/-- UTF-16 code units of a character. -/
def utf16 (c : Char) : List Nat :=
  if c.toNat < 0x10000 then [c.toNat]
  else [0xD800 + (c.toNat - 0x10000) / 0x400, 0xDC00 + (c.toNat - 0x10000) % 0x400]

/-- UTF-16 code units of a string. -/
def codeUnits (s : Str) : List Nat := s.flatMap utf16

/-- Lexicographic order on sequences of code units. -/
def lexLE : List Nat → List Nat → Bool
  | [], _ => true
  | _ :: _, [] => false
  | a :: x, b :: y => decide (a < b) || (a == b && lexLE x y)

/-- Order in which the default comparator of Array.prototype.sort places two elements:
by their string forms, compared as sequences of UTF-16 code units. -/
def strLE (x y : Str) : Prop := lexLE (codeUnits x) (codeUnits y) = true

instance : DecidableRel strLE := fun x y => by
  unfold strLE
  infer_instance

/-- Array.prototype.sort without comparator (a stable sort). -/
def sort (xs : List Str) : List Str := xs.insertionSort strLE

/-! ## Data model -/

/-- Data row as the code reads it: the four fields of a consumption record, each in its
string form. -/
structure Record where
  state : Str
  sector : Str
  year : Str
  value : Str
deriving DecidableEq, Repr

/-- ConsumptionRecord of the data model: the year is an integer (a safe integer of
JavaScript). -/
structure ConsumptionRecord where
  state : Str
  sector : Str
  year : Int
  value : Str
deriving DecidableEq, Repr

/-- Row holding a consumption record; the integer year is stored in its string form. -/
def ConsumptionRecord.toRecord (c : ConsumptionRecord) : Record :=
  { state := c.state, sector := c.sector, year := numberToString c.year, value := c.value }

/-- The module-level filter variables `selectedStates`, `selectedSectors`, `yearRange`. -/
structure FilterState where
  selectedStates : List Str
  selectedSectors : List Str
  yearRange : Int × Int
deriving DecidableEq, Repr

/-- Array.prototype.includes on an array of strings. -/
def includes (xs : List Str) (x : Str) : Bool := xs.contains x

/-- Comparison `parseInt(v) >= lo && parseInt(v) <= hi` with finite bounds: a comparison
with NaN is false, plus infinity fails the second comparison and minus infinity the
first. -/
def yearMatch (yearRange : Int × Int) (v : Str) : Bool :=
  match parseInt v with
  | IntNum.int y => decide (y ≥ yearRange.1) && decide (y ≤ yearRange.2)
  | IntNum.inf _ => false
  | IntNum.nan => false

/-- Function `filterData` of main.js, with the globals it reads as arguments. -/
def filterData (waterData : List Record) (fs : FilterState) : List Record :=
  waterData.filter (fun d =>
    let stateMatch := fs.selectedStates.length == 0 || includes fs.selectedStates d.state
    let sectorMatch := fs.selectedSectors.length == 0 || includes fs.selectedSectors d.sector
    stateMatch && sectorMatch && yearMatch fs.yearRange d.year)

/-! ## Aggregation -/

/-- Term `parseFloat(d.value) || 0` of the sums. -/
def recordValue (d : Record) : JSNum := (parseFloat d.value).orZero

/-- Reduction `rows.reduce((sum, d) => sum + (parseFloat(d.value) || 0), 0)`. -/
def sumValues (rows : List Record) : JSNum :=
  rows.foldl (fun sum d => sum + recordValue d) 0

/-- Object returned by `processTimeSeriesData`. -/
structure TimeSeries where
  years : List Str
  domestic : List JSNum
  nondomestic : List JSNum
deriving DecidableEq

/-- Function `processTimeSeriesData` of main.js. -/
def processTimeSeriesData (data : List Record) : TimeSeries :=
  let years := sort (distinct (data.map (fun d => d.year)))
  let pushed : List JSNum × List JSNum :=
    years.foldl (fun acc year =>
      let yearData := data.filter (fun d => d.year == year)
      let domesticSum := sumValues (yearData.filter (fun d => d.sector == "domestic".toList))
      let nondomesticSum :=
        sumValues (yearData.filter (fun d => d.sector == "nondomestic".toList))
      (acc.1 ++ [domesticSum], acc.2 ++ [nondomesticSum])) ([], [])
  { years := years, domestic := pushed.1, nondomestic := pushed.2 }

/-! ## Statistics -/

/-- Strict order of numbers, false when an operand is NaN. -/
def JSNum.lt : JSNum → JSNum → Bool
  | JSNum.nan, _ => false
  | _, JSNum.nan => false
  | JSNum.fin a, JSNum.fin b => decide (a < b)
  | JSNum.negInf, JSNum.negInf => false
  | JSNum.negInf, _ => true
  | _, JSNum.negInf => false
  | JSNum.posInf, _ => false
  | _, JSNum.posInf => true

/-- Function `Math.max` on the spread of an array: minus infinity for the empty array, NaN
when an argument is NaN. -/
def mathMax (xs : List JSNum) : JSNum :=
  xs.foldl (fun best x =>
    if best == JSNum.nan || x == JSNum.nan then JSNum.nan
    else if JSNum.lt best x then x else best) JSNum.negInf

/-- Function `Math.min` on the spread of an array: plus infinity for the empty array, NaN
when an argument is NaN. -/
def mathMin (xs : List JSNum) : JSNum :=
  xs.foldl (fun best x =>
    if best == JSNum.nan || x == JSNum.nan then JSNum.nan
    else if JSNum.lt x best then x else best) JSNum.posInf

/-- The four constants computed by `updateStatisticsCards`, before they are rounded and
handed to the counters of the page. -/
structure Statistics where
  totalConsumption : JSNum
  avgConsumption : JSNum
  maxConsumption : JSNum
  minConsumption : JSNum
deriving DecidableEq

/-- Calculation of `updateStatisticsCards` of main.js. -/
def updateStatisticsCards (waterData : List Record) (fs : FilterState) : Statistics :=
  let filteredData := filterData waterData fs
  let totalConsumption := filteredData.foldl (fun sum d => sum + recordValue d) 0
  let avgConsumption :=
    (JSNum.div totalConsumption (JSNum.fin (filteredData.length : ℚ))).orZero
  { totalConsumption := totalConsumption,
    avgConsumption := avgConsumption,
    maxConsumption := mathMax (filteredData.map recordValue),
    minConsumption := mathMin (filteredData.map recordValue) }

/-! ## Filter management -/

/-- The part of the document that `updateFilters` and `resetFilters` touch: the options of
the element `stateSelector` with their selected flag (absent when the page has no such
element), the elements of class `sector-toggle` with their checked flag, the value of
the element `yearSlider` and the text of the element `yearDisplay`. -/
structure Dom where
  stateSelector : Option (List (Str × Bool))
  sectorToggles : List (Str × Bool)
  yearSlider : Option Str
  yearDisplay : Option Str
deriving DecidableEq

/-- State of the page: the filter variables and the document. -/
structure Page where
  filters : FilterState
  dom : Dom
deriving DecidableEq

/-- Values of the filter variables at their declaration (lines 11 to 13 of main.js). -/
def initialFilters : FilterState :=
  { selectedStates := [],
    selectedSectors := ["domestic".toList, "nondomestic".toList],
    yearRange := (2015, 2024) }

/-- Function `updateFilters` of main.js, as far as it acts on the filter variables: the
selected states are read from the selector when the page has one, the selected sectors
from the checked toggles.  The redraw of charts and statistics that follows does not
assign the filter variables. -/
def updateFilters (p : Page) : Page :=
  let selectedStates :=
    match p.dom.stateSelector with
    | some options => (options.filter (fun o => o.2)).map (fun o => o.1)
    | none => p.filters.selectedStates
  let selectedSectors := (p.dom.sectorToggles.filter (fun t => t.2)).map (fun t => t.1)
  { p with filters :=
      { p.filters with selectedStates := selectedStates, selectedSectors := selectedSectors } }

/-- Function `resetFilters` of main.js.  The result is `Except.error` with the page as it
is when the assignment to the text of the element `yearDisplay` throws, which happens
when the page has the slider and not the display: the filter variables are then not
assigned. -/
def resetFilters (p : Page) : Except Page Page :=
  let dom1 : Dom :=
    { p.dom with
      stateSelector := p.dom.stateSelector.map (fun options => options.map (fun o => (o.1, false))) }
  let dom2 : Dom := { dom1 with sectorToggles := dom1.sectorToggles.map (fun t => (t.1, true)) }
  let reset (dom : Dom) : Page :=
    updateFilters
      { filters :=
          { selectedStates := [],
            selectedSectors := ["domestic".toList, "nondomestic".toList],
            yearRange := (2003, 2022) },
        dom := dom }
  match dom2.yearSlider, dom2.yearDisplay with
  | some _, none => Except.error { p with dom := { dom2 with yearSlider := some "2003".toList } }
  | some _, some _ =>
    Except.ok (reset { dom2 with yearSlider := some "2003".toList, yearDisplay := some "2003".toList })
  | none, _ => Except.ok (reset dom2)

/-- A document with a state selector, the two sector toggles, the slider and its display,
in some state of use: one state selected, one sector unchecked. -/
def dashboardDom : Dom :=
  { stateSelector := some [("Johor".toList, false), ("Kedah".toList, true)],
    sectorToggles := [("domestic".toList, true), ("nondomestic".toList, false)],
    yearSlider := some "2010".toList,
    yearDisplay := some "2010".toList }

/-! ## CSV -/

/-- String.prototype.split on a one-character separator: the pieces between the
occurrences of the separator, one piece (the empty string) for the empty string. -/
def split (sep : Char) : Str → List Str
  | [] => [[]]
  | c :: cs =>
    if c = sep then [] :: split sep cs
    else
      match split sep cs with
      | [] => [[c]]
      | piece :: pieces => (c :: piece) :: pieces

/-- Array.prototype.join on an array of strings. -/
def join (sep : Str) : List Str → Str
  | [] => []
  | [x] => x
  | x :: y :: rest => x ++ sep ++ join sep (y :: rest)

/-- Row object built by `parseCSV`: its own properties with their string values, in the
order of their first assignment. -/
abbrev Row := List (Str × Str)

/-- Assignment `row[key] = value` of a string to a property of an object literal: the
property is updated when the object has it and added otherwise.  The key `__proto__` is
the accessor of Object.prototype, whose setter ignores a string: nothing is stored. -/
def objSet (row : Row) (key value : Str) : Row :=
  if key = "__proto__".toList then row
  else if row.any (fun p => p.1 == key) then
    row.map (fun p => if p.1 == key then (key, value) else p)
  else row ++ [(key, value)]

/-- Value of the own property `key` of a row, `none` when the row has no such property. -/
def objGet (row : Row) (key : Str) : Option Str :=
  (row.find? (fun p => p.1 == key)).map (fun p => p.2)

/-- Loop `headers.forEach((header, index) => ...)` of `parseCSV` from position `index` on:
each header name, trimmed, is assigned the trimmed field of the same position, or the
empty string when that field is absent or empty. -/
def setFields (values : List Str) : List Str → Nat → Row → Row
  | [], _, row => row
  | header :: rest, index, row =>
    setFields values rest (index + 1)
      (objSet row (trim header)
        (match values[index]? with
          | some v => if v.isEmpty then [] else trim v
          | none => []))

/-- Function `parseCSV` of main.js. -/
def parseCSV (csvText : Str) : List Row :=
  let lines := split '\n' (trim csvText)
  let headers := split ',' (lines.headD [])
  lines.tail.map (fun line => setFields (split ',' line) headers 0 [])

/-- Function `convertToCSV` of main.js. -/
def convertToCSV (data : List Record) : Str :=
  let headers := ["State".toList, "Sector".toList, "Year".toList, "Value".toList]
  join "\n".toList
    (join ",".toList headers ::
      data.map (fun row => join ",".toList [row.state, row.sector, row.year, row.value]))

/-- Line of a record as the specification words it: state, sector, year and value
separated by commas, nothing quoted. -/
def recordLine (r : Record) : Str :=
  r.state ++ ',' :: (r.sector ++ ',' :: (r.year ++ ',' :: r.value))

/-- Row object with the properties `state`, `sector`, `year`, `value` of a record. -/
def Record.toRow (r : Record) : Row :=
  [("state".toList, r.state), ("sector".toList, r.sector), ("year".toList, r.year),
    ("value".toList, r.value)]

/-- Row object that the header of the exported file gives: the fields of a record under
the names `State`, `Sector`, `Year`, `Value`. -/
def Record.toExportedRow (r : Record) : Row :=
  [("State".toList, r.state), ("Sector".toList, r.sector), ("Year".toList, r.year),
    ("Value".toList, r.value)]

/-- Field that the CSV text carries unchanged: no comma, no line feed, and neither its
first nor its last character is white space. -/
def CleanField (f : Str) : Prop :=
  ',' ∉ f ∧ '\n' ∉ f ∧
  (∀ c, f.head? = some c → isWhiteSpace c = false) ∧
  (∀ c, f.getLast? = some c → isWhiteSpace c = false)

/-- Predicate of the specification, section 4.2, on a consumption record: an empty
selection matches everything and the year range is inclusive. -/
def specPredicate (fs : FilterState) (c : ConsumptionRecord) : Prop :=
  (fs.selectedStates = [] ∨ c.state ∈ fs.selectedStates) ∧
  (fs.selectedSectors = [] ∨ c.sector ∈ fs.selectedSectors) ∧
  fs.yearRange.1 ≤ c.year ∧ c.year ≤ fs.yearRange.2

instance (fs : FilterState) (c : ConsumptionRecord) : Decidable (specPredicate fs c) := by
  unfold specPredicate
  infer_instance

/-- The three rows of the scenario of the specification, section 8. -/
def scenarioRows : List ConsumptionRecord :=
  [ { state := "Johor".toList, sector := "domestic".toList, year := 2020, value := "100".toList },
    { state := "Johor".toList, sector := "domestic".toList, year := 2020, value := "50".toList },
    { state := "Kedah".toList, sector := "nondomestic".toList, year := 2020, value := "30".toList } ]

/-! ## Data loading -/

/-- Function `Math.round` on an exact number: the nearest integer, halves upwards. -/
def mathRound (x : ℚ) : Int := Int.floor (x + 1 / 2)

/-- The constant `states` of `generateSampleData`. -/
def sampleStates : List Str :=
  ["Johor".toList, "Kedah".toList, "Kelantan".toList, "Melaka".toList,
    "Negeri Sembilan".toList]

/-- The constant `sectors` of `generateSampleData`. -/
def sampleSectors : List Str := ["domestic".toList, "nondomestic".toList]

/-- The constant `years` of `generateSampleData`: the 20 numbers 2003 + i. -/
def sampleYears : List Int := (List.range 20).map (fun (i : Nat) => 2003 + (i : Int))

/-- Function `generateSampleData` of main.js: the value it assigns to `waterData`.  The
argument gives the successive results of `Math.random()`; one call is made per record,
so the call for a record is the one numbered by the count of records pushed before. -/
def generateSampleData (random : Nat → ℚ) : List Record :=
  sampleStates.foldl (fun waterData state =>
    sampleSectors.foldl (fun waterData sector =>
      sampleYears.foldl (fun waterData year =>
        let baseValue : ℚ := if sector = "domestic".toList then 500 else 300
        let variation : ℚ := random waterData.length * 200 - 100
        waterData ++
          [{ state := state, sector := sector, year := numberToString year,
             value := numberToString
               (mathRound (baseValue + variation + ((year : ℚ) - 2003) * 10)) }])
        waterData) waterData) []

/-- JSON value of a response as far as `loadData` tells values apart: `null`, on which
`Object.keys` throws, or any other value, kept as its text. -/
inductive JsonValue where
  | null
  | value (text : Str)
deriving DecidableEq

/-- Outcome of the four resource requests of `loadData`, in the order of the code: `none`
when the request or the reading of its body fails, for the two JSON resources also when
the body is not JSON. -/
structure FetchOutcomes where
  water : Option Str
  growth : Option Str
  ml : Option JsonValue
  predictions : Option JsonValue
deriving DecidableEq

/-- The four module-level datasets `waterData`, `growthData`, `mlResults`,
`futurePredictions`; the rows of the synthetic dataset are held as row objects. -/
structure Datasets where
  waterData : List Row
  growthData : List Row
  mlResults : JsonValue
  futurePredictions : JsonValue
deriving DecidableEq

/-- Handler of the `catch` clause of `loadData`: the synthetic dataset replaces
`waterData`. -/
def fallback (random : Nat → ℚ) (d : Datasets) : Datasets :=
  { d with waterData := (generateSampleData random).map Record.toRow }

/-- Function `loadData` of main.js: the datasets are assigned one after the other until a
step throws; the logging at the end of the `try` block throws when `Object.keys` is
applied to `null`. -/
def loadData (random : Nat → ℚ) (out : FetchOutcomes) (start : Datasets) : Datasets :=
  match out.water with
  | none => fallback random start
  | some waterCsv =>
    let d1 := { start with waterData := parseCSV waterCsv }
    match out.growth with
    | none => fallback random d1
    | some growthCsv =>
      let d2 := { d1 with growthData := parseCSV growthCsv }
      match out.ml with
      | none => fallback random d2
      | some mlJson =>
        let d3 := { d2 with mlResults := mlJson }
        match out.predictions with
        | none => fallback random d3
        | some predictionJson =>
          let d4 := { d3 with futurePredictions := predictionJson }
          if d4.mlResults = JsonValue.null ∨ d4.futurePredictions = JsonValue.null then
            fallback random d4
          else d4

/-- Combinations of state, sector and year of the synthetic dataset, in the words of the
specification: every state with every sector and every year from 2003 to 2022. -/
def sampleCombinations : List (Str × Str × Str) :=
  sampleStates.flatMap (fun s =>
    sampleSectors.flatMap (fun t =>
      sampleYears.map (fun y => (s, t, numberToString y))))

/-- Values of the four datasets at their declaration (lines 6 to 9 of main.js). -/
def initialDatasets : Datasets :=
  { waterData := [], growthData := [], mlResults := JsonValue.value "{}".toList,
    futurePredictions := JsonValue.value "{}".toList }

/-! ## Sums of doubles

The definitions above add numbers exactly.  The definitions of this section round every
number read and every sum to the nearest double, as the code does; they are used where
the order of the additions matters. -/

/-- Nearest integer, ties to the even one. -/
def roundHalfEven (x : ℚ) : ℤ :=
  let f := Int.floor x
  if x - f < 1 / 2 then f
  else if 1 / 2 < x - f then f + 1
  else if f % 2 = 0 then f else f + 1

/-- Nearest double of an exact number, ties to the even significand: 53 bits of
significand, the least exponent of a unit in the last place -1074, an infinity from 2^1024
on. -/
def roundDouble (q : ℚ) : JSNum :=
  if q = 0 then JSNum.fin 0
  else
    let e : ℤ := max (Int.log 2 |q| - 52) (-1074)
    let r : ℚ := (roundHalfEven (|q| / 2 ^ e) : ℚ) * 2 ^ e
    if (2 : ℚ) ^ (1024 : ℤ) ≤ r then (if q < 0 then JSNum.negInf else JSNum.posInf)
    else JSNum.fin (if q < 0 then -r else r)

/-- Number value of an exact number. -/
def JSNum.rounded : JSNum → JSNum
  | JSNum.fin q => roundDouble q
  | x => x

/-- Operator `+` on two doubles: the exact sum, rounded. -/
def JSNum.addRounded (a b : JSNum) : JSNum := (a + b).rounded

/-- Global `parseFloat(string)` with its result rounded to a double. -/
def parseFloatRounded (s : Str) : JSNum := (parseFloat s).rounded

/-- Term `parseFloat(d.value) || 0` of the sums, as a double. -/
def recordValueRounded (d : Record) : JSNum := (parseFloatRounded d.value).orZero

/-- Reduction `rows.reduce((sum, d) => sum + (parseFloat(d.value) || 0), 0)` on doubles. -/
def sumValuesRounded (rows : List Record) : JSNum :=
  rows.foldl (fun sum d => JSNum.addRounded sum (recordValueRounded d)) 0

/-- Function `processTimeSeriesData` of main.js with its sums on doubles. -/
def processTimeSeriesDataRounded (data : List Record) : TimeSeries :=
  let years := sort (distinct (data.map (fun d => d.year)))
  let pushed : List JSNum × List JSNum :=
    years.foldl (fun acc year =>
      let yearData := data.filter (fun d => d.year == year)
      let domesticSum :=
        sumValuesRounded (yearData.filter (fun d => d.sector == "domestic".toList))
      let nondomesticSum :=
        sumValuesRounded (yearData.filter (fun d => d.sector == "nondomestic".toList))
      (acc.1 ++ [domesticSum], acc.2 ++ [nondomesticSum])) ([], [])
  { years := years, domestic := pushed.1, nondomestic := pushed.2 }

/-- Sum of an array of doubles, added in order from 0. -/
def totalRounded (xs : List JSNum) : JSNum := xs.foldl JSNum.addRounded 0

/-- Three domestic rows with fractional values: 0.1 in 2020, 0.2 and 0.3 in 2021. -/
def fractionRows : List Record :=
  [ { state := "Johor".toList, sector := "domestic".toList, year := "2020".toList,
      value := "0.1".toList },
    { state := "Johor".toList, sector := "domestic".toList, year := "2021".toList,
      value := "0.2".toList },
    { state := "Johor".toList, sector := "domestic".toList, year := "2021".toList,
      value := "0.3".toList } ]

/-- Integer read from the value of a scenario row. -/
def scenarioValue (d : Record) : ℤ :=
  if d.value = "100".toList then 100 else if d.value = "50".toList then 50 else 30

/-! ## Auxiliary notions of the statements -/

/-- Years of the series: the distinct year values of the rows in the order of `sort`. -/
def yearsOf (data : List Record) : List Str := sort (distinct (data.map (fun d => d.year)))

/-- Last character, if any, is not white space. -/
def EndsClean (s : Str) : Prop := ∀ c, s.getLast? = some c → isWhiteSpace c = false

/-- Lines that `parseCSV` reads: the pieces of the trimmed text between line feeds. -/
def csvLines (text : Str) : List Str := split '\n' (trim text)

/-- Header fields that `parseCSV` reads: the comma-separated pieces of the first line. -/
def csvHeaders (text : Str) : List Str := split ',' ((csvLines text).headD [])

/-- Field of a line at a position, in the words of the specification: the trimmed piece
at that position, the empty string when the line has no such piece. -/
def fieldAt (line : Str) (i : Nat) : Str := (((split ',' line)[i]?).map trim).getD []

/-- Decimal digit character. -/
def isDecimalDigit (c : Char) : Bool := decide (48 ≤ c.toNat ∧ c.toNat ≤ 57)

/-- Text that starts with a number: after leading white space and an optional sign comes
a digit, a point followed by a digit, or the word Infinity. -/
def startsWithNumber (s : Str) : Bool :=
  let body := (readSign (trimStart s)).2
  startsWith "Infinity".toList body ||
    match body with
    | c :: rest =>
      isDecimalDigit c ||
        (c == '.' && match rest with
          | e :: _ => isDecimalDigit e
          | [] => false)
    | [] => false

/-- Non-empty text made of decimal digits only. -/
def allDigits (s : Str) : Bool := !s.isEmpty && s.all isDecimalDigit

/-- Text that is a number as a whole: white space around it aside, an optional sign and
then the word Infinity, or digits with an optional fraction (a digit on one side of the
point at least) and an optional exponent. -/
def isNumericText (s : Str) : Bool :=
  let body := (readSign (trim s)).2
  let parts := body.span (fun c => c != 'e' && c != 'E')
  let mantissaOk : Bool :=
    match split '.' parts.1 with
    | [ip] => allDigits ip
    | [ip, fp] => ip.all isDecimalDigit && fp.all isDecimalDigit && !(ip.isEmpty && fp.isEmpty)
    | _ => false
  let exponentOk : Bool :=
    match parts.2 with
    | [] => true
    | _ :: ex => allDigits (readSign ex).2
  body == "Infinity".toList || (mantissaOk && exponentOk)

/-! ## Lemmas on numerals -/

theorem radixDigit_digitChar (d : Nat) (h : d < 10) : radixDigit 10 (digitChar d) = some d := by
  interval_cases d <;> decide

theorem isWhiteSpace_digitChar (d : Nat) (h : d < 10) : isWhiteSpace (digitChar d) = false := by
  interval_cases d <;> decide

theorem digitChar_ne_special (d : Nat) (h : d < 10) :
    digitChar d ≠ '-' ∧ digitChar d ≠ '+' ∧ digitChar d ≠ 'x' ∧ digitChar d ≠ 'X' := by
  interval_cases d <;> decide

theorem takeDigits_map_digitChar (ds : List Nat) (h : ∀ d ∈ ds, d < 10) :
    takeDigits 10 (ds.map digitChar) = ds := by
  induction ds with
  | nil => rfl
  | cons d ds ih =>
    have hd : d < 10 := h d (List.mem_cons_self _ _)
    have hds : ∀ e ∈ ds, e < 10 := fun e he => h e (List.mem_cons_of_mem _ he)
    simp [takeDigits, radixDigit_digitChar d hd, ih hds]

theorem readSign_digitChar (d : Nat) (h : d < 10) (r : Str) :
    readSign (digitChar d :: r) = (false, digitChar d :: r) := by
  interval_cases d <;> rfl

theorem readRadix_digits (ds : List Nat) (h : ∀ d ∈ ds, d < 10) :
    readRadix (ds.map digitChar) = (10, ds.map digitChar) := by
  match ds, h with
  | [], _ => rfl
  | [d], h =>
    have hd : d < 10 := h d (by simp)
    interval_cases d <;> rfl
  | d :: e :: r, h =>
    have hd : d < 10 := h d (by simp)
    have he : e < 10 := h e (by simp)
    interval_cases d <;> first | rfl | (interval_cases e <;> rfl)

theorem scanInt_digits (ds : List Nat) (hne : ds ≠ []) (h : ∀ d ∈ ds, d < 10) :
    scanInt (ds.map digitChar) = some (digitsValue 10 ds : Int) := by
  obtain ⟨d, rest, rfl⟩ := List.exists_cons_of_ne_nil hne
  have hd : d < 10 := h d (List.mem_cons_self _ _)
  have hall := takeDigits_map_digitChar (d :: rest) h
  have hrad := readRadix_digits (d :: rest) h
  have hw := isWhiteSpace_digitChar d hd
  simp only [List.map_cons] at hall hrad ⊢
  simp [scanInt, trimStart, List.dropWhile_cons, hw, readSign_digitChar d hd, hrad, hall]

theorem scanInt_neg_digits (ds : List Nat) (hne : ds ≠ []) (h : ∀ d ∈ ds, d < 10) :
    scanInt ('-' :: ds.map digitChar) = some (- (digitsValue 10 ds : Int)) := by
  have hall := takeDigits_map_digitChar ds h
  have hrad := readRadix_digits ds h
  have hw : isWhiteSpace '-' = false := by decide
  simp [scanInt, trimStart, List.dropWhile_cons, hw, readSign, hrad, hall, hne]

theorem digitsRev_lt (fuel n : Nat) : ∀ d ∈ digitsRev fuel n, d < 10 := by
  induction fuel generalizing n with
  | zero => simp [digitsRev]
  | succ f ih =>
    intro d hd
    unfold digitsRev at hd
    split at hd
    · simp at hd; omega
    · rcases List.mem_cons.mp hd with h | h
      · omega
      · exact ih _ d h

theorem digitsRev_ne_nil (fuel n : Nat) : digitsRev (fuel + 1) n ≠ [] := by
  unfold digitsRev
  split <;> simp

theorem digitsValue_reverse_digitsRev (fuel n : Nat) (h : n < fuel) :
    digitsValue 10 (digitsRev fuel n).reverse = n := by
  induction fuel generalizing n with
  | zero => omega
  | succ f ih =>
    unfold digitsRev
    split
    · simp [digitsValue]
    · have hlt : n / 10 < f := by omega
      have := ih (n / 10) hlt
      simp only [digitsValue, List.reverse_cons, List.foldl_append, List.foldl_cons,
        List.foldl_nil] at this ⊢
      rw [this]
      omega

theorem scanInt_numberToString (n : Int) : scanInt (numberToString n) = some n := by
  have hlt := digitsRev_lt (n.natAbs + 1) n.natAbs
  have hne := digitsRev_ne_nil n.natAbs n.natAbs
  have hval := digitsValue_reverse_digitsRev (n.natAbs + 1) n.natAbs (by omega)
  have hlt2 : ∀ d ∈ (digitsRev (n.natAbs + 1) n.natAbs).reverse, d < 10 := by
    intro d hd
    exact hlt d (List.mem_reverse.mp hd)
  have hne2 : (digitsRev (n.natAbs + 1) n.natAbs).reverse ≠ [] := by
    simpa using hne
  unfold numberToString natToString
  split
  · rw [scanInt_neg_digits _ hne2 hlt2, hval]
    congr 1
    omega
  · rw [scanInt_digits _ hne2 hlt2, hval]
    congr 1
    omega

/-! ## Filtering -/

theorem doubleShift_of_lt (n : Nat) (h : n < 2 ^ 53) : doubleShift n n = 0 := by
  cases n with
  | zero => rfl
  | succ k =>
    unfold doubleShift
    rw [if_pos h]

theorem roundNat_of_lt (n : Nat) (h : n < 2 ^ 53) : roundNat n = n := by
  simp [roundNat, doubleShift_of_lt n h, Nat.mod_one]

theorem toDouble_of_safe (n : Int) (h : n.natAbs < 2 ^ 53) : toDouble n = IntNum.int n := by
  have hbig : ¬ (infinityBound ≤ n.natAbs) := by
    unfold infinityBound
    omega
  unfold toDouble
  simp only [roundNat_of_lt n.natAbs h, hbig, if_false]
  congr 1
  split <;> omega

theorem parseInt_numberToString (n : Int) (h : n.natAbs < 2 ^ 53) :
    parseInt (numberToString n) = IntNum.int n := by
  simp [parseInt, scanInt_numberToString, toDouble_of_safe n h]

theorem yearMatch_numberToString (yr : Int × Int) (n : Int) (h : n.natAbs < 2 ^ 53) :
    yearMatch yr (numberToString n) = (decide (yr.1 ≤ n) && decide (n ≤ yr.2)) := by
  simp [yearMatch, parseInt_numberToString n h]

theorem filterData_map_toRecord (R : List ConsumptionRecord) (fs : FilterState)
    (hR : ∀ c ∈ R, c.year.natAbs < 2 ^ 53) :
    filterData (R.map ConsumptionRecord.toRecord) fs
      = (R.filter (fun c => decide (specPredicate fs c))).map ConsumptionRecord.toRecord := by
  unfold filterData
  rw [List.filter_map]
  congr 1
  apply List.filter_congr
  intro c hc
  simp only [Function.comp, ConsumptionRecord.toRecord, yearMatch_numberToString _ _ (hR c hc),
    includes, specPredicate]
  apply Bool.eq_iff_iff.mpr
  simp [List.length_eq_zero, and_assoc]

/-- Claim C1. For every list of consumption records whose years are safe integers and
every filter state whose year range is made of safe integers, filterData returns exactly
the records, in their original order and multiplicity, whose state is selected (or no
state is), whose sector is selected (or no sector is) and whose year lies in the inclusive
year range; with the single selected state Kedah no record of Johor is in the output. -/
theorem filterData_spec (R : List ConsumptionRecord) (fs : FilterState)
    (hR : ∀ c ∈ R, c.year.natAbs < 2 ^ 53)
    (hrange : fs.yearRange.1.natAbs < 2 ^ 53 ∧ fs.yearRange.2.natAbs < 2 ^ 53) :
    filterData (R.map ConsumptionRecord.toRecord) fs
        = (R.filter (fun c => decide (specPredicate fs c))).map ConsumptionRecord.toRecord
      ∧ (fs.selectedStates = ["Kedah".toList] →
          ∀ d ∈ filterData (R.map ConsumptionRecord.toRecord) fs, d.state ≠ "Johor".toList) := by
  have _ := hrange
  refine ⟨filterData_map_toRecord R fs hR, ?_⟩
  intro hsel d hd
  rw [filterData_map_toRecord R fs hR] at hd
  obtain ⟨c, hc, rfl⟩ := List.mem_map.mp hd
  have hp : specPredicate fs c := by simpa using (List.mem_filter.mp hc).2
  rcases hp.1 with h | h
  · rw [hsel] at h
    exact absurd h (by simp)
  · rw [hsel] at h
    have hst : c.state = "Kedah".toList := by simpa using h
    simp only [ConsumptionRecord.toRecord, hst]
    decide

/-- Witness of claim C1 on the rows of the scenario, with Kedah selected and the range
2003 to 2022: only the Kedah row passes. -/
theorem filterData_spec_witness :
    (∀ c ∈ scenarioRows, c.year.natAbs < 2 ^ 53)
    ∧ filterData (scenarioRows.map ConsumptionRecord.toRecord)
        { selectedStates := ["Kedah".toList], selectedSectors := [], yearRange := (2003, 2022) }
      = [ { state := "Kedah".toList, sector := "nondomestic".toList, year := "2020".toList,
            value := "30".toList } ]
    ∧ ∀ d ∈ filterData (scenarioRows.map ConsumptionRecord.toRecord)
        { selectedStates := ["Kedah".toList], selectedSectors := [], yearRange := (2003, 2022) },
        d.state ≠ "Johor".toList :=
  ⟨by decide, by decide, (filterData_spec scenarioRows
      { selectedStates := ["Kedah".toList], selectedSectors := [],
        yearRange := (2003, 2022) } (by decide) (by decide)).2 rfl⟩

/-- Claim C2. For every list of consumption records whose years are safe integers and
every year range made of safe integers, filterData with no state and no sector selected
returns all records whose year lies in the inclusive year range, in input order, and no
others: the empty selection matches everything. -/
theorem filterData_wildcard (R : List ConsumptionRecord) (yr : Int × Int)
    (hR : ∀ c ∈ R, c.year.natAbs < 2 ^ 53)
    (hrange : yr.1.natAbs < 2 ^ 53 ∧ yr.2.natAbs < 2 ^ 53) :
    filterData (R.map ConsumptionRecord.toRecord)
        { selectedStates := [], selectedSectors := [], yearRange := yr }
      = (R.filter (fun c => decide (yr.1 ≤ c.year ∧ c.year ≤ yr.2))).map
          ConsumptionRecord.toRecord := by
  have _ := hrange
  rw [filterData_map_toRecord R _ hR]
  congr 1
  apply List.filter_congr
  intro c _
  simp [specPredicate]

/-- Witness of claim C2 on the rows of the scenario and the year range 2003 to 2022: all
three rows pass. -/
theorem filterData_wildcard_witness :
    filterData (scenarioRows.map ConsumptionRecord.toRecord)
        { selectedStates := [], selectedSectors := [], yearRange := (2003, 2022) }
      = (scenarioRows.filter (fun c => decide ((2003 : Int) ≤ c.year ∧ c.year ≤ 2022))).map
          ConsumptionRecord.toRecord :=
  filterData_wildcard scenarioRows (2003, 2022) (by decide) (by decide)

/-! ## Set and sort -/

theorem distinct_foldl_mem (xs acc : List Str) (x : Str) :
    x ∈ xs.foldl (fun acc x => if acc.contains x then acc else acc ++ [x]) acc
      ↔ x ∈ acc ∨ x ∈ xs := by
  induction xs generalizing acc with
  | nil => simp
  | cons y ys ih =>
    simp only [List.foldl_cons, ih, List.mem_cons]
    by_cases hy : acc.contains y = true
    · have hmem : y ∈ acc := by simpa using hy
      simp only [hy, if_true]
      constructor
      · rintro (h | h)
        · exact Or.inl h
        · exact Or.inr (Or.inr h)
      · rintro (h | h | h)
        · exact Or.inl h
        · exact Or.inl (h ▸ hmem)
        · exact Or.inr h
    · simp only [hy, List.mem_append, List.mem_singleton]
      simp only [Bool.false_eq_true, if_false, List.mem_append, List.mem_singleton]
      tauto

theorem distinct_foldl_nodup (xs acc : List Str) (h : acc.Nodup) :
    (xs.foldl (fun acc x => if acc.contains x then acc else acc ++ [x]) acc).Nodup := by
  induction xs generalizing acc with
  | nil => simpa using h
  | cons y ys ih =>
    simp only [List.foldl_cons]
    apply ih
    by_cases hy : y ∈ acc
    · simpa [hy] using h
    · have hc : acc.contains y = false := by simpa using hy
      rw [hc]
      exact List.Nodup.append h (List.nodup_singleton y) (by simpa using hy)

theorem mem_distinct (xs : List Str) (x : Str) : x ∈ distinct xs ↔ x ∈ xs := by
  unfold distinct
  rw [distinct_foldl_mem]
  simp

theorem nodup_distinct (xs : List Str) : (distinct xs).Nodup :=
  distinct_foldl_nodup xs [] List.nodup_nil

theorem sort_perm (xs : List Str) : (sort xs).Perm xs :=
  List.perm_insertionSort strLE xs

theorem mem_sort (xs : List Str) (x : Str) : x ∈ sort xs ↔ x ∈ xs :=
  (sort_perm xs).mem_iff

theorem nodup_sort_distinct (xs : List Str) : (sort (distinct xs)).Nodup :=
  (sort_perm (distinct xs)).nodup_iff.mpr (nodup_distinct xs)

/-! ## Aggregation -/

theorem sumValues_eq_sum (rows : List Record) : sumValues rows = (rows.map recordValue).sum := by
  unfold sumValues
  rw [List.sum_eq_foldl, List.foldl_map]

theorem foldl_push (f g : Str → JSNum) (ys : List Str) (a b : List JSNum) :
    ys.foldl (fun acc y => (acc.1 ++ [f y], acc.2 ++ [g y])) (a, b)
      = (a ++ ys.map f, b ++ ys.map g) := by
  induction ys generalizing a b with
  | nil => simp
  | cons y ys ih => simp [ih, List.append_assoc]

theorem processTimeSeriesData_eq (data : List Record) :
    processTimeSeriesData data =
      { years := yearsOf data,
        domestic := (yearsOf data).map (fun y =>
          sumValues ((data.filter (fun d => d.year == y)).filter
            (fun d => d.sector == "domestic".toList))),
        nondomestic := (yearsOf data).map (fun y =>
          sumValues ((data.filter (fun d => d.year == y)).filter
            (fun d => d.sector == "nondomestic".toList))) } := by
  unfold processTimeSeriesData yearsOf
  simp only [foldl_push, List.nil_append]

theorem sumValues_filter_filter (data : List Record) (y s : Str) :
    sumValues ((data.filter (fun d => d.year == y)).filter (fun d => d.sector == s))
      = ((data.filter (fun d => decide (d.year = y ∧ d.sector = s))).map recordValue).sum := by
  rw [sumValues_eq_sum, List.filter_filter]
  congr 2
  apply List.filter_congr
  intro d _
  apply Bool.eq_iff_iff.mpr
  simp [and_comm]

theorem JSNum.fin_add_fin (a b : ℚ) : JSNum.fin a + JSNum.fin b = JSNum.fin (a + b) := rfl

theorem recordValue_of_scan (d : Record) (m : Nat) (h : scanFloat d.value = FloatLit.dec false m 0)
    (hm : m ≠ 0) : recordValue d = JSNum.fin m := by
  have hq : (m : ℚ) ≠ 0 := by exact_mod_cast hm
  simp [recordValue, parseFloat, h, FloatLit.toNum, JSNum.orZero, JSNum.truthy, hq]

theorem scenario_series :
    processTimeSeriesData (scenarioRows.map ConsumptionRecord.toRecord)
      = { years := ["2020".toList], domestic := [JSNum.fin 150],
          nondomestic := [JSNum.fin 30] } := by
  have hy : yearsOf (scenarioRows.map ConsumptionRecord.toRecord) = ["2020".toList] := by decide
  have h1 : recordValue ⟨"Johor".toList, "domestic".toList, "2020".toList, "100".toList⟩
      = JSNum.fin (100 : ℕ) := recordValue_of_scan _ 100 (by decide) (by decide)
  have h2 : recordValue ⟨"Johor".toList, "domestic".toList, "2020".toList, "50".toList⟩
      = JSNum.fin (50 : ℕ) := recordValue_of_scan _ 50 (by decide) (by decide)
  have h3 : recordValue ⟨"Kedah".toList, "nondomestic".toList, "2020".toList, "30".toList⟩
      = JSNum.fin (30 : ℕ) := recordValue_of_scan _ 30 (by decide) (by decide)
  have hd : (scenarioRows.map ConsumptionRecord.toRecord).filter
      (fun d => decide (d.year = "2020".toList ∧ d.sector = "domestic".toList))
      = [⟨"Johor".toList, "domestic".toList, "2020".toList, "100".toList⟩,
         ⟨"Johor".toList, "domestic".toList, "2020".toList, "50".toList⟩] := by decide
  have hn : (scenarioRows.map ConsumptionRecord.toRecord).filter
      (fun d => decide (d.year = "2020".toList ∧ d.sector = "nondomestic".toList))
      = [⟨"Kedah".toList, "nondomestic".toList, "2020".toList, "30".toList⟩] := by decide
  rw [processTimeSeriesData_eq, hy]
  simp only [List.map_cons, List.map_nil, sumValues_filter_filter, hd, hn, List.sum_cons,
    List.sum_nil, h1, h2, h3, add_zero, JSNum.fin_add_fin]
  norm_num

/-- Claim C4. For every list of rows and every year at index i of the years array of
processTimeSeriesData, domestic at i is the sum of the values of the input rows of that
year and sector domestic, and nondomestic at i the sum over those of sector nondomestic,
every duplicate row counted; the three rows of the scenario yield years 2020, domestic
150 and nondomestic 30. -/
theorem processTimeSeriesData_sums (data : List Record) :
    (∀ (i : Nat) (y : Str), (processTimeSeriesData data).years[i]? = some y →
      (processTimeSeriesData data).domestic[i]?
          = some ((data.filter (fun d =>
              decide (d.year = y ∧ d.sector = "domestic".toList))).map recordValue).sum
      ∧ (processTimeSeriesData data).nondomestic[i]?
          = some ((data.filter (fun d =>
              decide (d.year = y ∧ d.sector = "nondomestic".toList))).map recordValue).sum)
    ∧ processTimeSeriesData (scenarioRows.map ConsumptionRecord.toRecord)
        = { years := ["2020".toList], domestic := [JSNum.fin 150],
            nondomestic := [JSNum.fin 30] } := by
  refine ⟨?_, scenario_series⟩
  intro i y hy
  rw [processTimeSeriesData_eq] at hy ⊢
  simp only [List.getElem?_map, sumValues_filter_filter] at hy ⊢
  rw [hy]
  exact ⟨rfl, rfl⟩

/-- Witness of claim C4 at index 0 of the series of the scenario rows. -/
theorem processTimeSeriesData_sums_witness :
    (processTimeSeriesData (scenarioRows.map ConsumptionRecord.toRecord)).years[0]?
        = some "2020".toList
    ∧ (processTimeSeriesData (scenarioRows.map ConsumptionRecord.toRecord)).domestic[0]?
        = some (((scenarioRows.map ConsumptionRecord.toRecord).filter (fun d =>
            decide (d.year = "2020".toList ∧ d.sector = "domestic".toList))).map
              recordValue).sum :=
  ⟨by rw [scenario_series]; rfl,
   ((processTimeSeriesData_sums (scenarioRows.map ConsumptionRecord.toRecord)).1 0
      "2020".toList (by rw [scenario_series]; rfl)).1⟩

theorem sum_indicator_of_not_mem (ys : List Str) (k : Str) (v : JSNum) (h : k ∉ ys) :
    (ys.map (fun y => if k = y then v else 0)).sum = 0 := by
  induction ys with
  | nil => rfl
  | cons y ys ih =>
    have hky : k ≠ y := fun e => h (e ▸ List.mem_cons_self _ _)
    have hks : k ∉ ys := fun e => h (List.mem_cons_of_mem _ e)
    simp [hky, ih hks]

theorem sum_indicator_of_mem (ys : List Str) (k : Str) (v : JSNum) (hnd : ys.Nodup)
    (h : k ∈ ys) : (ys.map (fun y => if k = y then v else 0)).sum = v := by
  induction ys with
  | nil => exact absurd h (List.not_mem_nil _)
  | cons y ys ih =>
    have hnd2 := List.nodup_cons.mp hnd
    by_cases hky : k = y
    · subst hky
      simp [sum_indicator_of_not_mem ys k v hnd2.1]
    · have hks : k ∈ ys := (List.mem_cons.mp h).resolve_left hky
      simp [hky, ih hnd2.2 hks]

theorem sum_by_year (ys : List Str) (hnd : ys.Nodup) (s : Str) (l : List Record)
    (hall : ∀ d ∈ l, d.year ∈ ys) :
    (ys.map (fun y =>
        ((l.filter (fun d => decide (d.year = y ∧ d.sector = s))).map recordValue).sum)).sum
      = ((l.filter (fun d => decide (d.sector = s))).map recordValue).sum := by
  induction l with
  | nil => simp
  | cons d l ih =>
    have hd : d.year ∈ ys := hall d (List.mem_cons_self _ _)
    have hl : ∀ e ∈ l, e.year ∈ ys := fun e he => hall e (List.mem_cons_of_mem _ he)
    have hsplit : ∀ y : Str,
        ((List.filter (fun e => decide (e.year = y ∧ e.sector = s)) (d :: l)).map
            recordValue).sum
          = (if d.year = y then (if d.sector = s then recordValue d else 0) else 0)
            + ((l.filter (fun e => decide (e.year = y ∧ e.sector = s))).map recordValue).sum := by
      intro y
      by_cases h1 : d.year = y <;> by_cases h2 : d.sector = s <;>
        simp [List.filter_cons, h1, h2]
    simp only [hsplit, List.sum_map_add, ih hl,
      sum_indicator_of_mem ys d.year _ hnd hd]
    by_cases h2 : d.sector = s <;> simp [List.filter_cons, h2]

theorem year_mem_yearsOf (data : List Record) (d : Record) (h : d ∈ data) :
    d.year ∈ yearsOf data := by
  unfold yearsOf
  rw [mem_sort, mem_distinct]
  exact List.mem_map_of_mem _ h

/-- Conservation of totals in exact arithmetic: for every list of rows and every filter
state, the exact sum of the domestic array of the series of the filtered rows equals the
exact sum of the values of the filtered rows of sector domestic. -/
theorem processTimeSeriesData_conservation (R : List Record) (fs : FilterState) :
    (processTimeSeriesData (filterData R fs)).domestic.sum
      = (((filterData R fs).filter (fun d => decide (d.sector = "domestic".toList))).map
          recordValue).sum := by
  rw [processTimeSeriesData_eq]
  simp only [sumValues_filter_filter]
  exact sum_by_year (yearsOf (filterData R fs)) (nodup_sort_distinct _) _ (filterData R fs)
    (year_mem_yearsOf (filterData R fs))

/-- Claim C3, the code at a failing input: for rows of the years 999 and 1000 the years
array is 1000 followed by 999, the order of the string forms and not the numeric one. -/
theorem processTimeSeriesData_years_not_numeric :
    (processTimeSeriesData
      ([ { state := "Johor".toList, sector := "domestic".toList, year := 999,
           value := "1".toList },
         { state := "Johor".toList, sector := "domestic".toList, year := 1000,
           value := "1".toList } ].map ConsumptionRecord.toRecord)).years
      = [numberToString 1000, numberToString 999] := by
  decide

/-! ## Statistics -/

/-- Claim C9. When the filtered record set is empty, the mean computed by
updateStatisticsCards, total divided by count with the fallback to 0, is 0 and not
NaN. -/
theorem updateStatisticsCards_avg_empty (waterData : List Record) (fs : FilterState)
    (h : filterData waterData fs = []) :
    (updateStatisticsCards waterData fs).avgConsumption = JSNum.fin 0 := by
  unfold updateStatisticsCards
  simp only [h, List.foldl_nil, List.length_nil, Nat.cast_zero]
  rfl

/-- Witness of claim C9: the scenario rows with the single selected state Perak. -/
theorem updateStatisticsCards_avg_empty_witness :
    filterData (scenarioRows.map ConsumptionRecord.toRecord)
        { selectedStates := ["Perak".toList], selectedSectors := [], yearRange := (2003, 2022) }
      = []
    ∧ (updateStatisticsCards (scenarioRows.map ConsumptionRecord.toRecord)
        { selectedStates := ["Perak".toList], selectedSectors := [],
          yearRange := (2003, 2022) }).avgConsumption = JSNum.fin 0 :=
  ⟨by decide, updateStatisticsCards_avg_empty _ _ (by decide)⟩

/-! ## Filter management -/

/-- Claim C10, the code at a failing input: from the filter state of startup, on a page
with selector, both toggles, slider and display, resetFilters completes with no state
selected, both sectors selected and the year range 2003 to 2022, while the year range of
startup is 2015 to 2024. -/
theorem resetFilters_yearRange_not_initial :
    (resetFilters { filters := initialFilters, dom := dashboardDom }).map (fun p => p.filters)
        = Except.ok
            { selectedStates := [],
              selectedSectors := ["domestic".toList, "nondomestic".toList],
              yearRange := (2003, 2022) }
    ∧ initialFilters.yearRange = (2015, 2024) := by
  constructor
  · rfl
  · rfl

/-! ## CSV -/

theorem split_of_not_mem (sep : Char) (s : Str) (h : sep ∉ s) : split sep s = [s] := by
  induction s with
  | nil => rfl
  | cons c cs ih =>
    have hc : c ≠ sep := fun e => h (e ▸ List.mem_cons_self _ _)
    have hcs : sep ∉ cs := fun e => h (List.mem_cons_of_mem _ e)
    simp [split, hc, ih hcs]

theorem split_append_sep (sep : Char) (a b : Str) (h : sep ∉ a) :
    split sep (a ++ sep :: b) = a :: split sep b := by
  induction a with
  | nil => simp [split]
  | cons c cs ih =>
    have hc : c ≠ sep := fun e => h (e ▸ List.mem_cons_self _ _)
    have hcs : sep ∉ cs := fun e => h (List.mem_cons_of_mem _ e)
    simp [split, hc, ih hcs]

theorem join_cons (sep : Str) (x : Str) (xs : List Str) :
    join sep (x :: xs) = x ++ xs.flatMap (fun l => sep ++ l) := by
  induction xs generalizing x with
  | nil => simp [join]
  | cons y ys ih => simp [join, ih y, List.flatMap_cons]

theorem split_join (sep : Char) (xs : List Str) (hne : xs ≠ []) (h : ∀ x ∈ xs, sep ∉ x) :
    split sep (join [sep] xs) = xs := by
  induction xs with
  | nil => exact absurd rfl hne
  | cons x xs ih =>
    have hx : sep ∉ x := h x (List.mem_cons_self _ _)
    cases xs with
    | nil => simpa [join] using split_of_not_mem sep x hx
    | cons y ys =>
      have hrest : ∀ z ∈ y :: ys, sep ∉ z := fun z hz => h z (List.mem_cons_of_mem _ hz)
      have := ih (by simp) hrest
      simp only [join, List.append_assoc, List.singleton_append]
      rw [split_append_sep sep x _ hx, this]

theorem convertToCSV_eq_join (data : List Record) :
    convertToCSV data
      = join ['\n'] ("State,Sector,Year,Value".toList :: data.map recordLine) := by
  have hh : join ",".toList ["State".toList, "Sector".toList, "Year".toList, "Value".toList]
      = "State,Sector,Year,Value".toList := by decide
  have hl : ∀ row : Record,
      join ",".toList [row.state, row.sector, row.year, row.value] = recordLine row := by
    intro row
    simp [join, recordLine]
  simp only [convertToCSV, hh, hl]
  rfl

theorem trimStart_eq_self (s : Str) (h : ∀ c, s.head? = some c → isWhiteSpace c = false) :
    trimStart s = s := by
  cases s with
  | nil => rfl
  | cons c cs =>
    have hc := h c rfl
    simp [trimStart, List.dropWhile_cons, hc]

theorem trimEnd_eq_self (s : Str) (h : ∀ c, s.getLast? = some c → isWhiteSpace c = false) :
    trimEnd s = s := by
  unfold trimEnd
  have hr : ∀ c, s.reverse.head? = some c → isWhiteSpace c = false := by
    intro c hc
    apply h c
    simpa [List.head?_reverse] using hc
  have := trimStart_eq_self s.reverse hr
  unfold trimStart at this
  rw [this, List.reverse_reverse]

theorem trim_eq_self (s : Str) (h1 : ∀ c, s.head? = some c → isWhiteSpace c = false)
    (h2 : ∀ c, s.getLast? = some c → isWhiteSpace c = false) : trim s = s := by
  unfold trim
  rw [trimStart_eq_self s h1, trimEnd_eq_self s h2]

theorem endsClean_append (a b : Str) (hb : b ≠ []) (h : EndsClean b) : EndsClean (a ++ b) := by
  intro c hc
  rw [List.getLast?_append_of_ne_nil a hb] at hc
  exact h c hc

theorem endsClean_comma_cons (v : Str) (h : EndsClean v) : EndsClean (',' :: v) := by
  cases v with
  | nil =>
    intro c hc
    have : c = ',' := by simpa using hc.symm
    subst this
    decide
  | cons d ds =>
    intro c hc
    rw [List.getLast?_cons_cons] at hc
    exact h c hc

theorem recordLine_ne_nil (r : Record) : recordLine r ≠ [] := by
  unfold recordLine
  cases r.state <;> simp

theorem endsClean_cons (x : Char) (l : Str) (hl : l ≠ []) (h : EndsClean l) :
    EndsClean (x :: l) := by
  obtain ⟨d, ds, rfl⟩ := List.exists_cons_of_ne_nil hl
  intro c hc
  rw [List.getLast?_cons_cons] at hc
  exact h c hc

theorem endsClean_recordLine (r : Record) (h : EndsClean r.value) : EndsClean (recordLine r) := by
  unfold recordLine
  have h1 := endsClean_comma_cons _ h
  have h2 : EndsClean (r.year ++ ',' :: r.value) := endsClean_append _ _ (by simp) h1
  have h3 := endsClean_cons ',' _ (by simp) h2
  have h4 : EndsClean (r.sector ++ ',' :: (r.year ++ ',' :: r.value)) :=
    endsClean_append _ _ (by simp) h3
  have h5 := endsClean_cons ',' _ (by simp) h4
  exact endsClean_append _ _ (by simp) h5

theorem join_ne_nil (sep : Str) (x : Str) (xs : List Str) (hx : x ≠ []) :
    join sep (x :: xs) ≠ [] := by
  rw [join_cons]
  simp [hx]

theorem endsClean_join (sep : Str) (xs : List Str) (hne : ∀ x ∈ xs, x ≠ [])
    (h : ∀ x ∈ xs, EndsClean x) : EndsClean (join sep xs) := by
  induction xs with
  | nil =>
    intro c hc
    simp [join] at hc
  | cons x xs ih =>
    cases xs with
    | nil => simpa [join] using h x (List.mem_cons_self _ _)
    | cons y ys =>
      have hne2 : ∀ z ∈ y :: ys, z ≠ [] := fun z hz => hne z (List.mem_cons_of_mem _ hz)
      have h2 : ∀ z ∈ y :: ys, EndsClean z := fun z hz => h z (List.mem_cons_of_mem _ hz)
      have hy : y ≠ [] := hne y (by simp)
      simp only [join]
      exact endsClean_append _ _ (join_ne_nil sep y ys hy) (ih hne2 h2)

theorem setFields_export (a b c d : Str) :
    setFields [a, b, c, d]
        ["State".toList, "Sector".toList, "Year".toList, "Value".toList] 0 []
      = [("State".toList, if a.isEmpty then [] else trim a),
         ("Sector".toList, if b.isEmpty then [] else trim b),
         ("Year".toList, if c.isEmpty then [] else trim c),
         ("Value".toList, if d.isEmpty then [] else trim d)] := by
  rfl

theorem split_convertToCSV (R : List Record) (h : ∀ r ∈ R, '\n' ∉ recordLine r) :
    split '\n' (convertToCSV R) = "State,Sector,Year,Value".toList :: R.map recordLine := by
  rw [convertToCSV_eq_join]
  apply split_join '\n' _ (by simp)
  intro x hx
  rcases List.mem_cons.mp hx with hx | hx
  · subst hx
    decide
  · obtain ⟨r, hr, rfl⟩ := List.mem_map.mp hx
    exact h r hr

/-- Claim C8. For every list of rows convertToCSV returns the line State,Sector,Year,Value
followed, for each row in input order, by a line feed and the state, sector, year and
value of the row joined by commas, nothing quoted; for the empty list it is the header
line alone; when no field holds a line feed, the lines of the output are the header line
and exactly one line per row. -/
theorem convertToCSV_spec (R : List Record) :
    convertToCSV R
        = "State,Sector,Year,Value".toList ++ R.flatMap (fun r => '\n' :: recordLine r)
    ∧ convertToCSV [] = "State,Sector,Year,Value".toList
    ∧ ((∀ r ∈ R, '\n' ∉ recordLine r) →
        split '\n' (convertToCSV R) = "State,Sector,Year,Value".toList :: R.map recordLine) := by
  refine ⟨?_, by decide, split_convertToCSV R⟩
  rw [convertToCSV_eq_join, join_cons, List.flatMap_map]
  rfl

/-- Witness of claim C8 on the three rows of the scenario. -/
theorem convertToCSV_spec_witness :
    (∀ r ∈ scenarioRows.map ConsumptionRecord.toRecord, '\n' ∉ recordLine r)
    ∧ split '\n' (convertToCSV (scenarioRows.map ConsumptionRecord.toRecord))
        = ["State,Sector,Year,Value".toList, "Johor,domestic,2020,100".toList,
           "Johor,domestic,2020,50".toList, "Kedah,nondomestic,2020,30".toList] :=
  ⟨by decide,
   ((convertToCSV_spec (scenarioRows.map ConsumptionRecord.toRecord)).2.2 (by decide)).trans
     (by decide)⟩

theorem cleanField_value (v : Str) (h : CleanField v) :
    (if v.isEmpty then [] else trim v) = v := by
  by_cases hv : v = []
  · simp [hv]
  · rw [trim_eq_self v h.2.2.1 h.2.2.2]
    simp

theorem split_recordLine (r : Record) (h1 : ',' ∉ r.state) (h2 : ',' ∉ r.sector)
    (h3 : ',' ∉ r.year) (h4 : ',' ∉ r.value) :
    split ',' (recordLine r) = [r.state, r.sector, r.year, r.value] := by
  unfold recordLine
  rw [split_append_sep _ _ _ h1, split_append_sep _ _ _ h2, split_append_sep _ _ _ h3,
    split_of_not_mem _ _ h4]

theorem newline_not_mem_recordLine (r : Record) (h1 : '\n' ∉ r.state) (h2 : '\n' ∉ r.sector)
    (h3 : '\n' ∉ r.year) (h4 : '\n' ∉ r.value) : '\n' ∉ recordLine r := by
  unfold recordLine
  simp only [List.mem_append, List.mem_cons, not_or]
  have hc : ¬ ('\n' = ',') := by decide
  exact ⟨h1, hc, h2, hc, h3, hc, h4⟩

theorem trim_convertToCSV (R : List Record) (h : ∀ r ∈ R, EndsClean r.value) :
    trim (convertToCSV R) = convertToCSV R := by
  apply trim_eq_self
  · intro c hc
    rw [convertToCSV_eq_join, join_cons] at hc
    have : c = 'S' := by
      have h0 : ("State,Sector,Year,Value".toList
          ++ (R.map recordLine).flatMap (fun l => ['\n'] ++ l)).head? = some 'S' := rfl
      rw [h0] at hc
      exact (Option.some.inj hc).symm
    subst this
    decide
  · rw [convertToCSV_eq_join]
    apply endsClean_join
    · intro x hx
      rcases List.mem_cons.mp hx with hx | hx
      · subst hx
        decide
      · obtain ⟨r, _, rfl⟩ := List.mem_map.mp hx
        exact recordLine_ne_nil r
    · intro x hx
      rcases List.mem_cons.mp hx with hx | hx
      · subst hx
        intro c hc
        have : c = 'e' := by
          have h0 : "State,Sector,Year,Value".toList.getLast? = some 'e' := by decide
          rw [h0] at hc
          exact (Option.some.inj hc).symm
        subst this
        decide
      · obtain ⟨r, hr, rfl⟩ := List.mem_map.mp hx
        exact endsClean_recordLine r (h r hr)

/-- Claim C6, as amended. For every list of rows whose fields hold no comma and no line
feed and neither start nor end with white space, parseCSV of convertToCSV of the list is
the list of the same rows, in order, with their fields under the names State, Sector,
Year and Value of the exported header. -/
theorem parseCSV_convertToCSV (R : List Record)
    (h : ∀ r ∈ R, CleanField r.state ∧ CleanField r.sector ∧ CleanField r.year
      ∧ CleanField r.value) :
    parseCSV (convertToCSV R) = R.map Record.toExportedRow := by
  have hnl : ∀ r ∈ R, '\n' ∉ recordLine r := fun r hr =>
    newline_not_mem_recordLine r (h r hr).1.2.1 (h r hr).2.1.2.1 (h r hr).2.2.1.2.1
      (h r hr).2.2.2.2.1
  have hend : ∀ r ∈ R, EndsClean r.value := fun r hr => (h r hr).2.2.2.2.2.2
  have hhead : split ',' "State,Sector,Year,Value".toList
      = ["State".toList, "Sector".toList, "Year".toList, "Value".toList] := by decide
  unfold parseCSV
  simp only [trim_convertToCSV R hend, split_convertToCSV R hnl, List.headD_cons,
    List.tail_cons, hhead, List.map_map]
  apply List.map_congr_left
  intro r hr
  obtain ⟨h1, h2, h3, h4⟩ := h r hr
  simp only [Function.comp, split_recordLine r h1.1 h2.1 h3.1 h4.1, setFields_export,
    cleanField_value _ h1, cleanField_value _ h2, cleanField_value _ h3,
    cleanField_value _ h4, Record.toExportedRow]

/-- Witness of claim C6 as amended, on the rows of the scenario. -/
theorem parseCSV_convertToCSV_witness :
    parseCSV (convertToCSV (scenarioRows.map ConsumptionRecord.toRecord))
      = (scenarioRows.map ConsumptionRecord.toRecord).map Record.toExportedRow :=
  parseCSV_convertToCSV _ (by
    intro r hr
    simp only [scenarioRows, List.map_cons, List.map_nil, List.mem_cons, List.mem_singleton,
      List.not_mem_nil, or_false] at hr
    rcases hr with rfl | rfl | rfl <;> (unfold CleanField; decide))

/-- Claim C6, counterexamples to the claim as stated. For the comma-free row Johor,
domestic, 2020, 100 the round trip is not the input: the resulting row has the
properties State, Sector, Year, Value and no property state. Renaming apart, a field with
a leading blank comes back without it, and a field with a line feed is cut into two
rows. -/
theorem parseCSV_convertToCSV_not_identity :
    parseCSV (convertToCSV
        [⟨"Johor".toList, "domestic".toList, "2020".toList, "100".toList⟩])
      ≠ [Record.toRow ⟨"Johor".toList, "domestic".toList, "2020".toList, "100".toList⟩]
    ∧ (parseCSV (convertToCSV
        [⟨"Johor".toList, "domestic".toList, "2020".toList, "100".toList⟩])).map
          (fun row => objGet row "state".toList) = [none]
    ∧ parseCSV (convertToCSV
        [⟨" Johor".toList, "domestic".toList, "2020".toList, "100".toList⟩])
      = [Record.toExportedRow ⟨"Johor".toList, "domestic".toList, "2020".toList, "100".toList⟩]
    ∧ (parseCSV (convertToCSV
        [⟨"Joh\nor".toList, "domestic".toList, "2020".toList, "100".toList⟩])).length = 2 := by
  decide

theorem objGet_cons (p : Str × Str) (ps : Row) (k : Str) :
    objGet (p :: ps) k = if p.1 = k then some p.2 else objGet ps k := by
  by_cases h : p.1 = k <;> simp [objGet, List.find?_cons, h]

theorem objGet_update_same (row : Row) (key value : Str)
    (hany : row.any (fun p => p.1 == key) = true) :
    objGet (row.map (fun p => if p.1 == key then (key, value) else p)) key = some value := by
  induction row with
  | nil => simp at hany
  | cons p ps ih =>
    rw [List.map_cons, objGet_cons]
    by_cases hp : p.1 = key
    · simp [hp]
    · have hps : ps.any (fun q => q.1 == key) = true := by
        simpa [List.any_cons, hp] using hany
      simp only [beq_iff_eq, hp, if_false]
      simpa using ih hps

theorem objGet_update_other (row : Row) (key value k : Str) (hk : k ≠ key) :
    objGet (row.map (fun p => if p.1 == key then (key, value) else p)) k = objGet row k := by
  induction row with
  | nil => rfl
  | cons p ps ih =>
    rw [List.map_cons, objGet_cons, objGet_cons, ih]
    by_cases hp : p.1 = key
    · have hpk : ¬ p.1 = k := fun e => hk (e.symm.trans hp)
      have hkk : ¬ key = k := fun e => hk e.symm
      simp [hp, hkk]
    · simp [hp]

theorem objGet_append_single (row : Row) (key value k : Str) :
    objGet (row ++ [(key, value)]) k
      = (objGet row k).or (if key = k then some value else none) := by
  induction row with
  | nil => by_cases h : key = k <;> simp [objGet, List.find?_cons, h]
  | cons p ps ih =>
    rw [List.cons_append, objGet_cons, objGet_cons, ih]
    by_cases hp : p.1 = k <;> simp [hp]

theorem objGet_eq_none_of_not_any (row : Row) (key : Str)
    (h : ¬ row.any (fun p => p.1 == key) = true) : objGet row key = none := by
  induction row with
  | nil => rfl
  | cons p ps ih =>
    have hp : ¬ p.1 = key := by
      intro e
      apply h
      simp [List.any_cons, e]
    have hps : ¬ ps.any (fun q => q.1 == key) = true := by
      intro e
      apply h
      simp only [List.any_cons, e, Bool.or_true]
    rw [objGet_cons, if_neg hp, ih hps]

theorem objGet_objSet_same (row : Row) (key value : Str) (hk : key ≠ "__proto__".toList) :
    objGet (objSet row key value) key = some value := by
  unfold objSet
  rw [if_neg hk]
  by_cases hany : row.any (fun p => p.1 == key) = true
  · rw [if_pos hany]
    exact objGet_update_same row key value hany
  · rw [if_neg hany, objGet_append_single, objGet_eq_none_of_not_any row key hany]
    simp

theorem objGet_objSet_other (row : Row) (key value k : Str) (hk : k ≠ key) :
    objGet (objSet row key value) k = objGet row k := by
  unfold objSet
  split
  · rfl
  · split
    · exact objGet_update_other row key value k hk
    · have hkk : ¬ key = k := fun e => hk e.symm
      rw [objGet_append_single, if_neg hkk]
      simp

theorem objGet_setFields_of_not_mem (values hs : List Str) (idx : Nat) (row : Row) (k : Str)
    (h : ∀ x ∈ hs, trim x ≠ k) :
    objGet (setFields values hs idx row) k = objGet row k := by
  induction hs generalizing idx row with
  | nil => rfl
  | cons x xs ih =>
    have hx : k ≠ trim x := fun e => h x (List.mem_cons_self _ _) e.symm
    have hxs : ∀ y ∈ xs, trim y ≠ k := fun y hy => h y (List.mem_cons_of_mem _ hy)
    simp only [setFields]
    rw [ih _ _ hxs, objGet_objSet_other _ _ _ _ hx]

theorem codeField_eq (values : List Str) (n : Nat) :
    (match values[n]? with
      | some v => if v.isEmpty then [] else trim v
      | none => []) = ((values[n]?).map trim).getD [] := by
  cases hv : values[n]? with
  | none => rfl
  | some v =>
    by_cases he : v = []
    · subst he
      rfl
    · simp [he]

theorem objGet_setFields (values hs : List Str) (idx : Nat) (row : Row) (i : Nat) (header : Str)
    (hi : hs[i]? = some header) (hp : trim header ≠ "__proto__".toList)
    (hlast : ∀ k other, i < k → hs[k]? = some other → trim other ≠ trim header) :
    objGet (setFields values hs idx row) (trim header)
      = some (((values[idx + i]?).map trim).getD []) := by
  induction hs generalizing idx row i with
  | nil => simp at hi
  | cons x xs ih =>
    cases i with
    | zero =>
      have hx : x = header := by simpa using hi
      subst hx
      have hxs : ∀ y ∈ xs, trim y ≠ trim x := by
        intro y hy
        obtain ⟨n, hn⟩ := List.getElem?_of_mem hy
        exact hlast (n + 1) y (Nat.succ_pos n) (by simpa using hn)
      simp only [setFields]
      rw [objGet_setFields_of_not_mem _ _ _ _ _ hxs, objGet_objSet_same _ _ _ hp,
        codeField_eq]
      rfl
    | succ i =>
      have hi2 : xs[i]? = some header := by simpa using hi
      have hlast2 : ∀ k other, i < k → xs[k]? = some other → trim other ≠ trim header := by
        intro k other hk hko
        exact hlast (k + 1) other (Nat.succ_lt_succ hk) (by simpa using hko)
      simp only [setFields]
      rw [ih (idx + 1) _ i hi2 hlast2]
      congr 4
      omega

/-- Claim C7, as amended. For every text, parseCSV removes the white space around the
text, takes the first line of the result as the header, split on commas, and returns one
row per further line, in line order; for every header name other than the reserved name
of the prototype link, the row maps the trimmed name at position i, when no later
position of the header has the same trimmed name, to the trimmed field at position i of
its line, and to the empty string when the line has no field there. -/
theorem parseCSV_spec (text : Str) :
    (parseCSV text).length = (csvLines text).length - 1
    ∧ ∀ (j i : Nat) (line header : Str),
        (csvLines text)[j + 1]? = some line →
        (csvHeaders text)[i]? = some header →
        trim header ≠ "__proto__".toList →
        (∀ k other, i < k → (csvHeaders text)[k]? = some other → trim other ≠ trim header) →
        ∃ row, (parseCSV text)[j]? = some row
          ∧ objGet row (trim header) = some (fieldAt line i) := by
  constructor
  · simp [parseCSV, csvLines]
  · intro j i line header hline hheader hp hlast
    have hl : (csvLines text).tail[j]? = some line := by
      rw [List.getElem?_tail]
      exact hline
    refine ⟨setFields (split ',' line) (csvHeaders text) 0 [], ?_, ?_⟩
    · show (List.map _ (csvLines text).tail)[j]? = _
      rw [List.getElem?_map, hl]
      rfl
    · rw [objGet_setFields _ _ 0 [] i header hheader hp hlast]
      simp [fieldAt]

/-- Witness of claim C7 as amended: second header name and second field of the only data
line of a text with blanks around names and fields and a final line feed. -/
theorem parseCSV_spec_witness :
    ∃ row, (parseCSV "state , year\n Johor , 2020 \n".toList)[0]? = some row
      ∧ objGet row "year".toList = some "2020".toList :=
  (parseCSV_spec "state , year\n Johor , 2020 \n".toList).2 0 1 " Johor , 2020".toList
    " year".toList (by decide) (by decide) (by decide)
    (by
      intro k other hk hko
      have h2 : (csvHeaders "state , year\n Johor , 2020 \n".toList) = ["state ".toList, " year".toList] := by
        decide
      rw [h2] at hko
      match k, hk, hko with
      | k + 2, _, hko => simp at hko)

/-- Claim C7, counterexamples to the claim as stated. With the header a,a and the line 1,2
the row maps the name a to 2, not to the field 1 at position 0; the text with a final
line feed has three lines and yields one row, not two; a column named as the prototype
link yields no property. -/
theorem parseCSV_not_positional :
    (parseCSV "a,a\n1,2".toList).map (fun row => objGet row "a".toList) = [some "2".toList]
    ∧ fieldAt "1,2".toList 0 = "1".toList
    ∧ (split '\n' "a\n1\n".toList).length = 3
    ∧ (parseCSV "a\n1\n".toList).length = 1
    ∧ (parseCSV "__proto__\n1".toList).map (fun row => objGet row "__proto__".toList)
        = [none] := by
  decide

/-! ## Shape of the series and malformed values -/

/-- Claim C13. For every list of rows the three arrays returned by processTimeSeriesData
have the same length, so position i of each series belongs to year i; for the empty list
all three are empty. -/
theorem processTimeSeriesData_lengths (data : List Record) :
    (processTimeSeriesData data).domestic.length = (processTimeSeriesData data).years.length
    ∧ (processTimeSeriesData data).nondomestic.length
        = (processTimeSeriesData data).years.length
    ∧ processTimeSeriesData [] = { years := [], domestic := [], nondomestic := [] } := by
  rw [processTimeSeriesData_eq]
  refine ⟨by simp, by simp, by decide⟩

theorem radixDigit_of_not_digit (c : Char) (h : isDecimalDigit c = false) :
    radixDigit 10 c = none := by
  have hc : ¬ (48 ≤ c.toNat ∧ c.toNat ≤ 57) := by simpa [isDecimalDigit] using h
  unfold radixDigit digitVal
  rw [if_neg hc]
  by_cases h2 : 97 ≤ c.toNat ∧ c.toNat ≤ 102
  · have : ¬ (c.toNat - 87 < 10) := by omega
    rw [if_pos h2]
    simp [this]
  · rw [if_neg h2]
    by_cases h3 : 65 ≤ c.toNat ∧ c.toNat ≤ 70
    · have : ¬ (c.toNat - 55 < 10) := by omega
      rw [if_pos h3]
      simp [this]
    · rw [if_neg h3]

theorem takeDigits_of_not_digit (c : Char) (rest : Str) (h : isDecimalDigit c = false) :
    takeDigits 10 (c :: rest) = [] := by
  simp [takeDigits, radixDigit_of_not_digit c h]

theorem scanFloat_of_not_startsWithNumber (s : Str) (h : startsWithNumber s = false) :
    scanFloat s = FloatLit.none := by
  unfold startsWithNumber at h
  unfold scanFloat
  generalize (readSign (trimStart s)) = signed at h ⊢
  obtain ⟨neg, body⟩ := signed
  simp only [Bool.or_eq_false_iff] at h
  obtain ⟨hinf, hbody⟩ := h
  simp only [hinf, Bool.false_eq_true, if_false]
  cases body with
  | nil => rfl
  | cons c rest =>
    simp only [Bool.or_eq_false_iff] at hbody
    obtain ⟨hc, hpoint⟩ := hbody
    have hip : takeDigits 10 (c :: rest) = [] := takeDigits_of_not_digit c rest hc
    simp only [hip, List.length_nil, List.drop_zero]
    by_cases hdot : c = '.'
    · subst hdot
      cases rest with
      | nil => rfl
      | cons e rest2 =>
        have he : isDecimalDigit e = false := by simpa using hpoint
        simp [takeDigits_of_not_digit e rest2 he]
    · simp
      split
      · rename_i heq
        exact absurd (List.cons.inj heq).1 hdot
      · rfl

theorem recordValue_of_not_startsWithNumber (d : Record) (h : startsWithNumber d.value = false) :
    recordValue d = 0 := by
  unfold recordValue parseFloat
  rw [scanFloat_of_not_startsWithNumber d.value h]
  rfl

theorem series_at_index (data : List Record) (i : Nat) (y : Str)
    (hy : (processTimeSeriesData data).years[i]? = some y) :
    (processTimeSeriesData data).domestic[i]?
        = some ((data.filter (fun d =>
            decide (d.year = y ∧ d.sector = "domestic".toList))).map recordValue).sum
    ∧ (processTimeSeriesData data).nondomestic[i]?
        = some ((data.filter (fun d =>
            decide (d.year = y ∧ d.sector = "nondomestic".toList))).map recordValue).sum := by
  rw [processTimeSeriesData_eq] at hy ⊢
  simp only [List.getElem?_map, sumValues_filter_filter] at hy ⊢
  rw [hy]
  exact ⟨rfl, rfl⟩

theorem sum_filter_without (pre post : List Record) (d : Record) (p : Record → Bool)
    (h : recordValue d = 0) :
    (((pre ++ d :: post).filter p).map recordValue).sum
      = (((pre ++ post).filter p).map recordValue).sum := by
  simp only [List.filter_append, List.filter_cons, List.map_append, List.sum_append]
  cases p d <;> simp [h]

/-- Claim C11, as amended. For every list of rows, a row whose value is missing, empty or
does not start with a number is not dropped by processTimeSeriesData: its year is in the
years array, the term it adds to a sum is 0, and at the index of its year the sums of both
sectors are the sums over the other rows. -/
theorem processTimeSeriesData_malformed (before after : List Record) (d : Record)
    (h : startsWithNumber d.value = false) :
    d.year ∈ (processTimeSeriesData (before ++ d :: after)).years
    ∧ recordValue d = 0
    ∧ ∀ i : Nat, (processTimeSeriesData (before ++ d :: after)).years[i]? = some d.year →
        (processTimeSeriesData (before ++ d :: after)).domestic[i]?
            = some (((before ++ after).filter (fun e =>
                decide (e.year = d.year ∧ e.sector = "domestic".toList))).map recordValue).sum
        ∧ (processTimeSeriesData (before ++ d :: after)).nondomestic[i]?
            = some (((before ++ after).filter (fun e =>
                decide (e.year = d.year ∧ e.sector = "nondomestic".toList))).map
                  recordValue).sum := by
  have h0 := recordValue_of_not_startsWithNumber d h
  refine ⟨?_, h0, ?_⟩
  · rw [processTimeSeriesData_eq]
    exact year_mem_yearsOf _ d (by simp)
  · intro i hi
    obtain ⟨h1, h2⟩ := series_at_index _ i d.year hi
    rw [h1, h2, sum_filter_without before after d _ h0, sum_filter_without before after d _ h0]
    exact ⟨rfl, rfl⟩

/-- Witness of claim C11 as amended: a row of 2021 with an empty value after a row of 2020;
the year 2021 is in the years array and the sums at its index are those of the other
row. -/
theorem processTimeSeriesData_malformed_witness :
    startsWithNumber [] = false
    ∧ "2021".toList ∈ (processTimeSeriesData
        [⟨"Johor".toList, "domestic".toList, "2020".toList, "100".toList⟩,
         ⟨"Johor".toList, "domestic".toList, "2021".toList, []⟩]).years
    ∧ (processTimeSeriesData
        [⟨"Johor".toList, "domestic".toList, "2020".toList, "100".toList⟩,
         ⟨"Johor".toList, "domestic".toList, "2021".toList, []⟩]).domestic[1]?
      = some (((([⟨"Johor".toList, "domestic".toList, "2020".toList, "100".toList⟩]
          : List Record) ++ ([] : List Record)).filter (fun e =>
            decide (e.year = "2021".toList ∧ e.sector = "domestic".toList))).map
              recordValue).sum :=
  ⟨by decide,
   (processTimeSeriesData_malformed
      [⟨"Johor".toList, "domestic".toList, "2020".toList, "100".toList⟩] []
      ⟨"Johor".toList, "domestic".toList, "2021".toList, []⟩ (by decide)).1,
   ((processTimeSeriesData_malformed
      [⟨"Johor".toList, "domestic".toList, "2020".toList, "100".toList⟩] []
      ⟨"Johor".toList, "domestic".toList, "2021".toList, []⟩ (by decide)).2.2 1
        (by decide)).1⟩

/-- Claim C11, counterexample to the claim as stated. The value 12abc is not a number, and
the only row, with that value, contributes 12 to the domestic sum of its year. -/
theorem processTimeSeriesData_numeric_prefix :
    isNumericText "12abc".toList = false
    ∧ processTimeSeriesData [⟨"Johor".toList, "domestic".toList, "2020".toList, "12abc".toList⟩]
      = { years := ["2020".toList], domestic := [JSNum.fin 12], nondomestic := [JSNum.fin 0] } := by
  refine ⟨by decide, ?_⟩
  have hy : yearsOf [⟨"Johor".toList, "domestic".toList, "2020".toList, "12abc".toList⟩]
      = ["2020".toList] := by decide
  have h1 : recordValue ⟨"Johor".toList, "domestic".toList, "2020".toList, "12abc".toList⟩
      = JSNum.fin (12 : ℕ) := recordValue_of_scan _ 12 (by decide) (by decide)
  have hd : [(⟨"Johor".toList, "domestic".toList, "2020".toList, "12abc".toList⟩ : Record)].filter
      (fun d => decide (d.year = "2020".toList ∧ d.sector = "domestic".toList))
      = [⟨"Johor".toList, "domestic".toList, "2020".toList, "12abc".toList⟩] := by decide
  have hn : [(⟨"Johor".toList, "domestic".toList, "2020".toList, "12abc".toList⟩ : Record)].filter
      (fun d => decide (d.year = "2020".toList ∧ d.sector = "nondomestic".toList))
      = [] := by decide
  rw [processTimeSeriesData_eq, hy]
  simp only [List.map_cons, List.map_nil, sumValues_filter_filter, hd, hn, List.sum_cons,
    List.sum_nil, h1, add_zero]
  norm_num
  rfl

/-! ## Data loading -/

theorem map_foldl_push {α β κ : Type} (f : List β → α → β) (key : β → κ) (g : α → κ)
    (h : ∀ acc a, key (f acc a) = g a) (xs : List α) (acc : List β) :
    (xs.foldl (fun acc a => acc ++ [f acc a]) acc).map key = acc.map key ++ xs.map g := by
  induction xs generalizing acc with
  | nil => simp
  | cons x xs ih => simp [ih, h, List.append_assoc]

theorem map_foldl_blocks {α β κ : Type} (F : List β → α → List β) (key : β → κ)
    (G : α → List κ) (h : ∀ acc a, (F acc a).map key = acc.map key ++ G a) (xs : List α)
    (acc : List β) :
    (xs.foldl F acc).map key = acc.map key ++ xs.flatMap G := by
  induction xs generalizing acc with
  | nil => simp
  | cons x xs ih => simp [ih, h, List.append_assoc, List.flatMap_cons]

theorem generateSampleData_keys (random : Nat → ℚ) :
    (generateSampleData random).map (fun d => (d.state, d.sector, d.year))
      = sampleCombinations := by
  unfold generateSampleData sampleCombinations
  rw [map_foldl_blocks _ _ (fun s =>
      sampleSectors.flatMap (fun t => sampleYears.map (fun y => (s, t, numberToString y))))]
  · simp
  · intro acc s
    rw [map_foldl_blocks _ _ (fun t => sampleYears.map (fun y => (s, t, numberToString y)))]
    intro acc2 t
    exact map_foldl_push
      (fun (waterData : List Record) (year : Int) =>
        ({ state := s, sector := t, year := numberToString year,
           value := numberToString
             (mathRound ((if t = "domestic".toList then 500 else 300)
               + (random waterData.length * 200 - 100) + ((year : ℚ) - 2003) * 10)) } : Record))
      (fun d => (d.state, d.sector, d.year)) (fun y => (s, t, numberToString y))
      (fun _ _ => rfl) sampleYears acc2

theorem length_flatMap_const {α β : Type} (f : α → List β) (n : Nat)
    (h : ∀ a, (f a).length = n) (xs : List α) : (xs.flatMap f).length = xs.length * n := by
  induction xs with
  | nil => simp
  | cons x xs ih => simp [List.flatMap_cons, ih, h, Nat.succ_mul, Nat.add_comm]

theorem sampleCombinations_length : sampleCombinations.length = 200 := by
  unfold sampleCombinations
  rw [length_flatMap_const _ 40]
  · rfl
  · intro s
    rw [length_flatMap_const _ 20]
    · rfl
    · intro t
      simp [sampleYears]

theorem numberToString_injective : Function.Injective numberToString := by
  intro a b h
  have ha := scanInt_numberToString a
  rw [h, scanInt_numberToString b] at ha
  exact (Option.some.inj ha).symm

theorem pairwise_disjoint_of_tag {α β : Type} (l : List α) (hl : l.Nodup) (f : α → List β)
    (tag : β → α) (h : ∀ a, ∀ b ∈ f a, tag b = a) :
    l.Pairwise (Function.onFun List.Disjoint f) := by
  refine List.Pairwise.imp ?_ hl
  intro a a2 hne b hb hb2
  exact hne ((h a b hb).symm.trans (h a2 b hb2))

theorem sampleYears_nodup : sampleYears.Nodup := by
  unfold sampleYears
  refine (List.nodup_range 20).map ?_
  intro i j hij
  simpa using hij

theorem sampleCombinations_nodup : sampleCombinations.Nodup := by
  unfold sampleCombinations
  rw [List.nodup_flatMap]
  constructor
  · intro s _
    rw [List.nodup_flatMap]
    constructor
    · intro t _
      refine sampleYears_nodup.map ?_
      intro y z hyz
      exact numberToString_injective (Prod.mk.inj (Prod.mk.inj hyz).2).2
    · refine pairwise_disjoint_of_tag sampleSectors (by decide) _ (fun k => k.2.1) ?_
      intro t k hk
      obtain ⟨y, _, rfl⟩ := List.mem_map.mp hk
      rfl
  · refine pairwise_disjoint_of_tag sampleStates (by decide) _ (fun k => k.1) ?_
    intro s k hk
    obtain ⟨t, _, hk2⟩ := List.mem_flatMap.mp hk
    obtain ⟨y, _, rfl⟩ := List.mem_map.mp hk2
    rfl

theorem mem_sampleYears (y : Int) (h1 : 2003 ≤ y) (h2 : y ≤ 2022) : y ∈ sampleYears := by
  unfold sampleYears
  rw [List.mem_map]
  refine ⟨(y - 2003).toNat, ?_, ?_⟩
  · rw [List.mem_range]
    omega
  · omega

theorem filter_length_eq_count {β κ : Type} [DecidableEq κ] (key : β → κ) (k : κ)
    (l : List β) : (l.filter (fun d => decide (key d = k))).length = (l.map key).count k := by
  induction l with
  | nil => rfl
  | cons d l ih =>
    by_cases h : key d = k <;> simp [List.filter_cons, List.count_cons, h, ih]

theorem generateSampleData_length (random : Nat → ℚ) :
    (generateSampleData random).length = 200 := by
  have h := congrArg List.length (generateSampleData_keys random)
  rw [List.length_map, sampleCombinations_length] at h
  exact h

theorem generateSampleData_one_each (random : Nat → ℚ) (s t : Str) (y : Int)
    (hs : s ∈ sampleStates) (ht : t ∈ sampleSectors) (h1 : 2003 ≤ y) (h2 : y ≤ 2022) :
    ((generateSampleData random).filter (fun d =>
      decide ((d.state, d.sector, d.year) = (s, t, numberToString y)))).length = 1 := by
  rw [filter_length_eq_count (fun d : Record => (d.state, d.sector, d.year)),
    generateSampleData_keys]
  apply List.count_eq_one_of_mem sampleCombinations_nodup
  unfold sampleCombinations
  rw [List.mem_flatMap]
  refine ⟨s, hs, ?_⟩
  rw [List.mem_flatMap]
  refine ⟨t, ht, ?_⟩
  exact List.mem_map_of_mem _ (mem_sampleYears y h1 h2)

theorem generateSampleData_ne_nil (random : Nat → ℚ) : generateSampleData random ≠ [] := by
  intro h
  have := generateSampleData_length random
  rw [h] at this
  exact absurd this (by decide)

theorem loadData_fallback (random : Nat → ℚ) (out : FetchOutcomes) (start : Datasets)
    (h : out.water = none ∨ out.growth = none ∨ out.ml = none ∨ out.predictions = none
      ∨ out.ml = some JsonValue.null ∨ out.predictions = some JsonValue.null) :
    (loadData random out start).waterData
      = (generateSampleData random).map Record.toRow := by
  obtain ⟨w, g, m, p⟩ := out
  cases w with
  | none => simp only [loadData, fallback]
  | some w =>
    cases g with
    | none => simp only [loadData, fallback]
    | some g =>
      cases m with
      | none => simp only [loadData, fallback]
      | some m =>
        cases p with
        | none => simp only [loadData, fallback]
        | some p =>
          cases m <;> cases p <;> simp_all [loadData, fallback]

/-- Claim C12, as amended. For every outcome of the four requests: when a request fails, a
JSON body does not parse or a JSON resource is null, the raw water dataset after loadData
is the synthetic dataset of generateSampleData and is not empty; when all four succeed
with JSON values other than null it is parseCSV of the fetched text; the synthetic
dataset has 200 records, exactly one for each combination of the 5 states, the 2 sectors
and the 20 years 2003 to 2022. -/
theorem loadData_waterData (random : Nat → ℚ) (out : FetchOutcomes) (start : Datasets) :
    ((out.water = none ∨ out.growth = none ∨ out.ml = none ∨ out.predictions = none
        ∨ out.ml = some JsonValue.null ∨ out.predictions = some JsonValue.null) →
      (loadData random out start).waterData = (generateSampleData random).map Record.toRow
      ∧ (loadData random out start).waterData ≠ [])
    ∧ (∀ (w g m p : Str),
        out = ⟨some w, some g, some (JsonValue.value m), some (JsonValue.value p)⟩ →
        (loadData random out start).waterData = parseCSV w)
    ∧ (generateSampleData random).length = 200
    ∧ ∀ s ∈ sampleStates, ∀ t ∈ sampleSectors, ∀ y : Int, 2003 ≤ y → y ≤ 2022 →
        ((generateSampleData random).filter (fun d =>
          decide ((d.state, d.sector, d.year) = (s, t, numberToString y)))).length = 1 := by
  refine ⟨?_, ?_, generateSampleData_length random, ?_⟩
  · intro h
    rw [loadData_fallback random out start h]
    refine ⟨rfl, ?_⟩
    intro hnil
    exact generateSampleData_ne_nil random (List.map_eq_nil_iff.mp hnil)
  · intro w g m p hout
    subst hout
    simp [loadData]
  · intro s hs t ht y h1 h2
    exact generateSampleData_one_each random s t y hs ht h1 h2

/-- Witness of claim C12 as amended, at startup: when the first request fails the water
dataset is the synthetic one and not empty; when all succeed it is parseCSV of the text;
the synthetic dataset has one record of Johor, domestic, 2010. -/
theorem loadData_waterData_witness :
    ((loadData (fun _ => 0)
        { water := none, growth := some [], ml := some (JsonValue.value "{}".toList),
          predictions := some (JsonValue.value "{}".toList) } initialDatasets).waterData
      = (generateSampleData (fun _ => 0)).map Record.toRow
      ∧ (loadData (fun _ => 0)
        { water := none, growth := some [], ml := some (JsonValue.value "{}".toList),
          predictions := some (JsonValue.value "{}".toList) } initialDatasets).waterData ≠ [])
    ∧ (loadData (fun _ => 0)
        ⟨some "year\n2020".toList, some [], some (JsonValue.value "{}".toList),
          some (JsonValue.value "{}".toList)⟩ initialDatasets).waterData
      = parseCSV "year\n2020".toList
    ∧ ((generateSampleData (fun _ => 0)).filter (fun d =>
        decide ((d.state, d.sector, d.year)
          = ("Johor".toList, "domestic".toList, numberToString 2010)))).length = 1 :=
  ⟨(loadData_waterData (fun _ => 0)
      { water := none, growth := some [], ml := some (JsonValue.value "{}".toList),
        predictions := some (JsonValue.value "{}".toList) } initialDatasets).1 (Or.inl rfl),
   (loadData_waterData (fun _ => 0)
      ⟨some "year\n2020".toList, some [], some (JsonValue.value "{}".toList),
        some (JsonValue.value "{}".toList)⟩ initialDatasets).2.1 _ _ _ _ rfl,
   (loadData_waterData (fun _ => 0)
      ⟨none, none, none, none⟩ initialDatasets).2.2.2 "Johor".toList (by decide)
        "domestic".toList (by decide) 2010 (by decide) (by decide)⟩

/-- Claim C12, counterexample to the claim as stated. When all four requests succeed and
the text of the water resource is its header line alone, the raw water dataset after
loadData is empty. -/
theorem loadData_waterData_empty :
    (loadData (fun _ => 0)
        { water := some "state,sector,year,value\n".toList, growth := some [],
          ml := some (JsonValue.value "{}".toList),
          predictions := some (JsonValue.value "{}".toList) } initialDatasets).waterData
      = [] := by
  decide

/-! ## Sums of doubles -/

theorem roundHalfEven_intCast (k : ℤ) : roundHalfEven (k : ℚ) = k := by
  simp [roundHalfEven]

theorem two_zpow_pos (e : ℤ) : (0 : ℚ) < 2 ^ e := zpow_pos (by norm_num) e

theorem natCast_div_zpow_isInt (a : ℕ) (ha : a ≠ 0) (h : a ≤ 2 ^ 53) :
    ∃ k : ℤ, (a : ℚ) / 2 ^ ((Nat.log 2 a : ℤ) - 52) = (k : ℚ) := by
  have hL : Nat.log 2 a ≤ 53 := by
    have := Nat.log_mono_right (b := 2) h
    rwa [Nat.log_pow (by decide)] at this
  by_cases h52 : Nat.log 2 a ≤ 52
  · refine ⟨(a * 2 ^ (52 - Nat.log 2 a) : ℕ), ?_⟩
    have he : ((Nat.log 2 a : ℤ) - 52) = -((52 - Nat.log 2 a : ℕ) : ℤ) := by omega
    rw [he, zpow_neg, zpow_natCast, div_inv_eq_mul]
    push_cast
    ring
  · have h53 : Nat.log 2 a = 53 := by omega
    have hpow : 2 ^ 53 ≤ a := by
      have := Nat.pow_log_le_self 2 ha
      rwa [h53] at this
    have ha53 : a = 2 ^ 53 := le_antisymm h hpow
    refine ⟨2 ^ 52, ?_⟩
    rw [h53, ha53]
    norm_num

theorem roundDouble_natCast (a : ℕ) (ha : a ≠ 0) (h : a ≤ 2 ^ 53) :
    roundDouble (a : ℚ) = JSNum.fin (a : ℚ) := by
  have hq : (a : ℚ) ≠ 0 := by exact_mod_cast ha
  have hpos : (0 : ℚ) < a := by exact_mod_cast Nat.pos_of_ne_zero ha
  have habs : |(a : ℚ)| = a := abs_of_pos hpos
  have hlog : Int.log 2 (a : ℚ) = Nat.log 2 a := Int.log_natCast 2 a
  have hmax : max ((Nat.log 2 a : ℤ) - 52) (-1074) = (Nat.log 2 a : ℤ) - 52 := by
    apply max_eq_left
    omega
  obtain ⟨k, hk⟩ := natCast_div_zpow_isInt a ha h
  have hne : (2 : ℚ) ^ ((Nat.log 2 a : ℤ) - 52) ≠ 0 := (two_zpow_pos _).ne'
  have hr : (k : ℚ) * 2 ^ ((Nat.log 2 a : ℤ) - 52) = a := by
    rw [← hk, div_mul_cancel₀ _ hne]
  have hbig : ¬ ((2 : ℚ) ^ (1024 : ℤ) ≤ (a : ℚ)) := by
    have h1 : (a : ℚ) ≤ 2 ^ (53 : ℕ) := by exact_mod_cast h
    have h2 : (2 : ℚ) ^ (53 : ℕ) < 2 ^ (1024 : ℤ) := by
      rw [← zpow_natCast]
      exact zpow_lt_zpow_right₀ (by norm_num) (by norm_num)
    exact not_le.mpr (lt_of_le_of_lt h1 h2)
  have hneg : ¬ ((a : ℚ) < 0) := not_lt.mpr hpos.le
  unfold roundDouble
  simp only [hq, if_false, habs, hlog, hmax, hk, roundHalfEven_intCast, hr, hbig, hneg]

theorem roundDouble_neg (q : ℚ) :
    roundDouble (-q) = (match roundDouble q with
      | JSNum.fin r => JSNum.fin (-r)
      | JSNum.posInf => JSNum.negInf
      | JSNum.negInf => JSNum.posInf
      | JSNum.nan => JSNum.nan) := by
  by_cases hq : q = 0
  · simp [hq, roundDouble]
  · have hnq : -q ≠ 0 := neg_ne_zero.mpr hq
    unfold roundDouble
    simp only [hq, hnq, if_false, abs_neg]
    rcases lt_or_gt_of_ne hq with hlt | hgt
    · have h1 : ¬ (-q < 0) := by linarith
      simp only [hlt, h1, if_true, if_false]
      split_ifs <;> simp
    · have h1 : -q < 0 := by linarith
      have h2 : ¬ (q < 0) := by linarith
      simp only [h1, h2, if_true, if_false]
      split_ifs <;> simp

theorem roundDouble_int (n : ℤ) (h : n.natAbs ≤ 2 ^ 53) :
    roundDouble (n : ℚ) = JSNum.fin (n : ℚ) := by
  by_cases hn : n = 0
  · simp [hn, roundDouble]
  · have ha : n.natAbs ≠ 0 := Int.natAbs_ne_zero.mpr hn
    rcases le_or_lt 0 n with h0 | h0
    · have e1 : ((n.natAbs : ℤ) : ℚ) = (n : ℚ) := by rw [Int.natAbs_of_nonneg h0]
      rw [← e1, Int.cast_natCast]
      exact roundDouble_natCast _ ha h
    · have e1 : ((n.natAbs : ℤ) : ℚ) = -(n : ℚ) := by
        rw [Int.ofNat_natAbs_of_nonpos h0.le]
        push_cast
        ring
      have e2 : (n : ℚ) = -((n.natAbs : ℕ) : ℚ) := by
        rw [← Int.cast_natCast, e1]
        ring
      rw [e2, roundDouble_neg, roundDouble_natCast _ ha h]

theorem addRounded_int (a z : ℤ) (h : a.natAbs + z.natAbs ≤ 2 ^ 53) :
    JSNum.addRounded (JSNum.fin (a : ℚ)) (JSNum.fin (z : ℚ)) = JSNum.fin ((a + z : ℤ) : ℚ) := by
  have hsum : (a + z).natAbs ≤ 2 ^ 53 := le_trans (Int.natAbs_add_le a z) h
  unfold JSNum.addRounded
  rw [JSNum.fin_add_fin]
  show roundDouble ((a : ℚ) + (z : ℚ)) = _
  rw [← Int.cast_add]
  exact roundDouble_int (a + z) hsum

theorem foldl_addRounded_int (zs : List ℤ) (a : ℤ)
    (h : a.natAbs + (zs.map Int.natAbs).sum ≤ 2 ^ 53) :
    (zs.map (fun (z : ℤ) => JSNum.fin (z : ℚ))).foldl JSNum.addRounded (JSNum.fin (a : ℚ))
      = JSNum.fin ((a + zs.sum : ℤ) : ℚ) := by
  induction zs generalizing a with
  | nil => simp
  | cons z zs ih =>
    simp only [List.map_cons, List.sum_cons, List.foldl_cons] at h ⊢
    rw [addRounded_int a z (by omega), ih (a + z)]
    · congr 2
      ring
    · have := Int.natAbs_add_le a z
      omega

theorem totalRounded_int (zs : List ℤ) (h : (zs.map Int.natAbs).sum ≤ 2 ^ 53) :
    totalRounded (zs.map (fun (z : ℤ) => JSNum.fin (z : ℚ))) = JSNum.fin ((zs.sum : ℤ) : ℚ) := by
  have := foldl_addRounded_int zs 0 (by simpa using h)
  simpa [totalRounded] using this

theorem sumValuesRounded_int (l : List Record) (v : Record → ℤ)
    (hv : ∀ d ∈ l, recordValueRounded d = JSNum.fin (v d : ℚ))
    (h : (l.map (fun d => (v d).natAbs)).sum ≤ 2 ^ 53) :
    sumValuesRounded l = JSNum.fin (((l.map v).sum : ℤ) : ℚ) := by
  have hmap : l.map recordValueRounded = (l.map v).map (fun (z : ℤ) => JSNum.fin (z : ℚ)) := by
    rw [List.map_map]
    exact List.map_congr_left hv
  have hfold : sumValuesRounded l = totalRounded (l.map recordValueRounded) := by
    unfold sumValuesRounded totalRounded
    rw [List.foldl_map]
  rw [hfold, hmap]
  apply totalRounded_int
  rw [List.map_map]
  exact h

theorem natAbs_sum_le (zs : List ℤ) : zs.sum.natAbs ≤ (zs.map Int.natAbs).sum := by
  induction zs with
  | nil => simp
  | cons z zs ih =>
    simp only [List.sum_cons, List.map_cons]
    have := Int.natAbs_add_le z zs.sum
    omega

theorem sum_indicator_gen_of_not_mem {M : Type} [AddCommMonoid M] (ys : List Str) (k : Str)
    (v : M) (h : k ∉ ys) : (ys.map (fun y => if k = y then v else 0)).sum = 0 := by
  induction ys with
  | nil => rfl
  | cons y ys ih =>
    have hky : k ≠ y := fun e => h (e ▸ List.mem_cons_self _ _)
    have hks : k ∉ ys := fun e => h (List.mem_cons_of_mem _ e)
    simp [hky, ih hks]

theorem sum_indicator_gen_of_mem {M : Type} [AddCommMonoid M] (ys : List Str) (k : Str)
    (v : M) (hnd : ys.Nodup) (h : k ∈ ys) :
    (ys.map (fun y => if k = y then v else 0)).sum = v := by
  induction ys with
  | nil => exact absurd h (List.not_mem_nil _)
  | cons y ys ih =>
    have hnd2 := List.nodup_cons.mp hnd
    by_cases hky : k = y
    · subst hky
      simp [sum_indicator_gen_of_not_mem ys k v hnd2.1]
    · have hks : k ∈ ys := (List.mem_cons.mp h).resolve_left hky
      simp [hky, ih hnd2.2 hks]

theorem sum_by_year_gen {M : Type} [AddCommMonoid M] (v : Record → M) (ys : List Str)
    (hnd : ys.Nodup) (s : Str) (l : List Record) (hall : ∀ d ∈ l, d.year ∈ ys) :
    (ys.map (fun y =>
        ((l.filter (fun d => decide (d.year = y ∧ d.sector = s))).map v).sum)).sum
      = ((l.filter (fun d => decide (d.sector = s))).map v).sum := by
  induction l with
  | nil => simp
  | cons d l ih =>
    have hd : d.year ∈ ys := hall d (List.mem_cons_self _ _)
    have hl : ∀ e ∈ l, e.year ∈ ys := fun e he => hall e (List.mem_cons_of_mem _ he)
    have hsplit : ∀ y : Str,
        ((List.filter (fun e => decide (e.year = y ∧ e.sector = s)) (d :: l)).map v).sum
          = (if d.year = y then (if d.sector = s then v d else 0) else 0)
            + ((l.filter (fun e => decide (e.year = y ∧ e.sector = s))).map v).sum := by
      intro y
      by_cases h1 : d.year = y <;> by_cases h2 : d.sector = s <;>
        simp [List.filter_cons, h1, h2]
    simp only [hsplit, List.sum_map_add, ih hl,
      sum_indicator_gen_of_mem ys d.year _ hnd hd]
    by_cases h2 : d.sector = s <;> simp [List.filter_cons, h2]

theorem filter_year_sector (data : List Record) (y t : Str) :
    (data.filter (fun d => d.year == y)).filter (fun d => d.sector == t)
      = data.filter (fun d => decide (d.year = y ∧ d.sector = t)) := by
  rw [List.filter_filter]
  apply List.filter_congr
  intro d _
  apply Bool.eq_iff_iff.mpr
  simp [and_comm]

theorem processTimeSeriesDataRounded_eq (data : List Record) :
    processTimeSeriesDataRounded data =
      { years := yearsOf data,
        domestic := (yearsOf data).map (fun y =>
          sumValuesRounded (data.filter (fun d =>
            decide (d.year = y ∧ d.sector = "domestic".toList)))),
        nondomestic := (yearsOf data).map (fun y =>
          sumValuesRounded (data.filter (fun d =>
            decide (d.year = y ∧ d.sector = "nondomestic".toList)))) } := by
  unfold processTimeSeriesDataRounded yearsOf
  simp only [foldl_push, List.nil_append, filter_year_sector]

theorem magnitudes_filter_le (v : Record → ℤ) (l : List Record) (p : Record → Bool) :
    ((l.filter p).map (fun d => (v d).natAbs)).sum ≤ (l.map (fun d => (v d).natAbs)).sum :=
  List.Sublist.sum_le_sum (List.Sublist.map _ (List.filter_sublist l)) (fun _ _ => Nat.zero_le _)

theorem conservation_of_integers (data : List Record) (v : Record → ℤ)
    (hv : ∀ d ∈ data, recordValueRounded d = JSNum.fin (v d : ℚ))
    (hb : ((data.filter (fun d => decide (d.sector = "domestic".toList))).map
      (fun d => (v d).natAbs)).sum ≤ 2 ^ 53) :
    totalRounded (processTimeSeriesDataRounded data).domestic
        = JSNum.fin ((((data.filter (fun d => decide (d.sector = "domestic".toList))).map
            v).sum : ℤ) : ℚ)
    ∧ sumValuesRounded (data.filter (fun d => decide (d.sector = "domestic".toList)))
        = JSNum.fin ((((data.filter (fun d => decide (d.sector = "domestic".toList))).map
            v).sum : ℤ) : ℚ) := by
  have hmem : ∀ (p : Record → Bool), ∀ d ∈ data.filter p,
      recordValueRounded d = JSNum.fin (v d : ℚ) :=
    fun p d hd => hv d (List.mem_of_mem_filter hd)
  have hyears := sum_by_year_gen (fun d => (v d).natAbs) (yearsOf data)
    (nodup_sort_distinct _) "domestic".toList data (year_mem_yearsOf data)
  have hexact := sum_by_year_gen v (yearsOf data)
    (nodup_sort_distinct _) "domestic".toList data (year_mem_yearsOf data)
  have hy : ∀ y : Str,
      ((data.filter (fun d => decide (d.year = y ∧ d.sector = "domestic".toList))).map
        (fun d => (v d).natAbs)).sum ≤ 2 ^ 53 := by
    intro y
    have hsub : data.filter (fun d => decide (d.year = y ∧ d.sector = "domestic".toList))
        = (data.filter (fun d => decide (d.sector = "domestic".toList))).filter
            (fun d => decide (d.year = y)) := by
      rw [List.filter_filter]
      apply List.filter_congr
      intro d _
      apply Bool.eq_iff_iff.mpr
      simp
    rw [hsub]
    exact le_trans (magnitudes_filter_le v _ _) hb
  refine ⟨?_, sumValuesRounded_int _ v (hmem _) hb⟩
  rw [processTimeSeriesDataRounded_eq]
  have hdom : (yearsOf data).map (fun y =>
        sumValuesRounded (data.filter (fun d =>
          decide (d.year = y ∧ d.sector = "domestic".toList))))
      = ((yearsOf data).map (fun y =>
          ((data.filter (fun d =>
            decide (d.year = y ∧ d.sector = "domestic".toList))).map v).sum)).map
          (fun (z : ℤ) => JSNum.fin (z : ℚ)) := by
    rw [List.map_map]
    apply List.map_congr_left
    intro y _
    exact sumValuesRounded_int _ v (hmem _) (hy y)
  simp only [hdom]
  rw [totalRounded_int, hexact]
  rw [List.map_map]
  refine le_trans (List.sum_le_sum ?_) (hyears.le.trans hb)
  intro y _
  have := natAbs_sum_le ((data.filter (fun d =>
    decide (d.year = y ∧ d.sector = "domestic".toList))).map v)
  rw [List.map_map] at this
  exact this

theorem roundHalfEven_of_lt (x : ℚ) (m : ℤ) (h1 : (m : ℚ) - 1 / 2 < x)
    (h2 : x < (m : ℚ) + 1 / 2) : roundHalfEven x = m := by
  unfold roundHalfEven
  rcases le_or_lt (m : ℚ) x with hle | hlt
  · have hf : Int.floor x = m := by
      rw [Int.floor_eq_iff]
      constructor
      · exact hle
      · linarith
    simp only [hf]
    rw [if_pos (by linarith)]
  · have hf : Int.floor x = m - 1 := by
      rw [Int.floor_eq_iff]
      constructor
      · push_cast
        linarith
      · push_cast
        linarith
    simp only [hf]
    have hc : ((m - 1 : ℤ) : ℚ) = (m : ℚ) - 1 := by push_cast; ring
    rw [hc, if_neg (by linarith), if_pos (by linarith)]
    ring

theorem roundHalfEven_of_tie (x : ℚ) (m : ℤ) (h : x = (m : ℚ) + 1 / 2) :
    roundHalfEven x = if m % 2 = 0 then m else m + 1 := by
  unfold roundHalfEven
  have hf : Int.floor x = m := by
    rw [Int.floor_eq_iff]
    constructor <;> linarith
  simp only [hf]
  rw [if_neg (by linarith), if_neg (by linarith)]

theorem log_two_eq (q : ℚ) (k : ℤ) (hlo : (2 : ℚ) ^ k ≤ q) (hhi : q < (2 : ℚ) ^ (k + 1)) :
    Int.log 2 q = k := by
  have hq : 0 < q := lt_of_lt_of_le (two_zpow_pos k) hlo
  have h1 : k ≤ Int.log 2 q := by
    rw [← Int.zpow_le_iff_le_log (by decide) hq]
    simpa using hlo
  have h2 : Int.log 2 q < k + 1 := by
    rw [← Int.lt_zpow_iff_log_lt (by decide) hq]
    simpa using hhi
  omega

theorem roundDouble_eval (q : ℚ) (k m : ℤ) (r : ℚ) (hlo : (2 : ℚ) ^ k ≤ q)
    (hhi : q < (2 : ℚ) ^ (k + 1)) (hk : -1022 ≤ k)
    (hm : roundHalfEven (q / 2 ^ (k - 52)) = m) (hr : (m : ℚ) * 2 ^ (k - 52) = r)
    (hsmall : r < 1024) : roundDouble q = JSNum.fin r := by
  have hq : 0 < q := lt_of_lt_of_le (two_zpow_pos k) hlo
  have hmax : max (k - 52) (-1074) = k - 52 := max_eq_left (by omega)
  have hbig : ¬ ((2 : ℚ) ^ (1024 : ℤ) ≤ r) := by
    have h2 : (1024 : ℚ) < 2 ^ (1024 : ℤ) := by
      have h3 : (2 : ℚ) ^ (10 : ℤ) < 2 ^ (1024 : ℤ) :=
        zpow_lt_zpow_right₀ (by norm_num) (by norm_num)
      have h4 : (2 : ℚ) ^ (10 : ℤ) = 1024 := by norm_num
      rwa [h4] at h3
    exact not_le.mpr (lt_trans hsmall h2)
  unfold roundDouble
  simp only [hq.ne', if_false, abs_of_pos hq, log_two_eq q k hlo hhi, hmax, hm, hr, hbig,
    not_lt.mpr hq.le]

theorem roundDouble_tenth : roundDouble (1 / 10 : ℚ) = JSNum.fin (3602879701896397 / 36028797018963968 : ℚ) :=
  roundDouble_eval _ (-4) 7205759403792794 _ (by norm_num) (by norm_num) (by norm_num)
    (roundHalfEven_of_lt _ _ (by norm_num) (by norm_num)) (by norm_num) (by norm_num)

theorem roundDouble_fifth : roundDouble (1 / 5 : ℚ) = JSNum.fin (3602879701896397 / 18014398509481984 : ℚ) :=
  roundDouble_eval _ (-3) 7205759403792794 _ (by norm_num) (by norm_num) (by norm_num)
    (roundHalfEven_of_lt _ _ (by norm_num) (by norm_num)) (by norm_num) (by norm_num)

theorem roundDouble_threeTenths : roundDouble (3 / 10 : ℚ) = JSNum.fin (5404319552844595 / 18014398509481984 : ℚ) :=
  roundDouble_eval _ (-2) 5404319552844595 _ (by norm_num) (by norm_num) (by norm_num)
    (roundHalfEven_of_lt _ _ (by norm_num) (by norm_num)) (by norm_num) (by norm_num)

theorem roundDouble_tenth_double : roundDouble (3602879701896397 / 36028797018963968 : ℚ) = JSNum.fin (3602879701896397 / 36028797018963968 : ℚ) :=
  roundDouble_eval _ (-4) 7205759403792794 _ (by norm_num) (by norm_num) (by norm_num)
    (roundHalfEven_of_lt _ _ (by norm_num) (by norm_num)) (by norm_num) (by norm_num)

theorem roundDouble_fifth_double : roundDouble (3602879701896397 / 18014398509481984 : ℚ) = JSNum.fin (3602879701896397 / 18014398509481984 : ℚ) :=
  roundDouble_eval _ (-3) 7205759403792794 _ (by norm_num) (by norm_num) (by norm_num)
    (roundHalfEven_of_lt _ _ (by norm_num) (by norm_num)) (by norm_num) (by norm_num)

theorem roundDouble_half : roundDouble (1 / 2 : ℚ) = JSNum.fin (1 / 2 : ℚ) :=
  roundDouble_eval _ (-1) 4503599627370496 _ (by norm_num) (by norm_num) (by norm_num)
    (roundHalfEven_of_lt _ _ (by norm_num) (by norm_num)) (by norm_num) (by norm_num)

theorem roundDouble_series_total : roundDouble (21617278211378381 / 36028797018963968 : ℚ) = JSNum.fin (5404319552844595 / 9007199254740992 : ℚ) :=
  roundDouble_eval _ (-1) 5404319552844595 _ (by norm_num) (by norm_num) (by norm_num)
    (roundHalfEven_of_lt _ _ (by norm_num) (by norm_num)) (by norm_num) (by norm_num)

theorem roundDouble_first_two : roundDouble (10808639105689191 / 36028797018963968 : ℚ) = JSNum.fin (1351079888211149 / 4503599627370496 : ℚ) :=
  roundDouble_eval _ (-2) (5404319552844595 + 1) _ (by norm_num) (by norm_num) (by norm_num)
    ((roundHalfEven_of_tie _ 5404319552844595 (by norm_num)).trans (by decide)) (by norm_num)
    (by norm_num)

theorem roundDouble_direct_total : roundDouble (10808639105689191 / 18014398509481984 : ℚ) = JSNum.fin (1351079888211149 / 2251799813685248 : ℚ) :=
  roundDouble_eval _ (-1) (5404319552844595 + 1) _ (by norm_num) (by norm_num) (by norm_num)
    ((roundHalfEven_of_tie _ 5404319552844595 (by norm_num)).trans (by decide)) (by norm_num)
    (by norm_num)

theorem recordValueRounded_of_scan (d : Record) (m : ℕ) (e : ℤ) (q r : ℚ)
    (h : scanFloat d.value = FloatLit.dec false m e) (hq : (m : ℚ) * 10 ^ e = q)
    (hr : roundDouble q = JSNum.fin r) (hr0 : r ≠ 0) : recordValueRounded d = JSNum.fin r := by
  unfold recordValueRounded parseFloatRounded parseFloat
  rw [h]
  simp only [FloatLit.toNum, JSNum.rounded, Bool.false_eq_true, if_false, one_mul, hq, hr]
  simp [JSNum.orZero, JSNum.truthy, hr0]

theorem addRounded_eval (a b c r : ℚ) (hab : a + b = c) (hc : roundDouble c = JSNum.fin r) :
    JSNum.addRounded (JSNum.fin a) (JSNum.fin b) = JSNum.fin r := by
  unfold JSNum.addRounded
  rw [JSNum.fin_add_fin, hab]
  exact hc

theorem JSNum.zero_def : (0 : JSNum) = JSNum.fin 0 := rfl

/-- Claim C5, counterexample to the claim as stated. For the rows of values 0.1 in 2020,
0.2 and 0.3 in 2021, all domestic and all passing the filter of startup, the domestic
array added over the years gives the double 0.6, and the values of the domestic rows
added in row order give the next double, 0.6000000000000001. -/
theorem conservation_fails_on_fractions :
    filterData fractionRows initialFilters = fractionRows
    ∧ totalRounded (processTimeSeriesDataRounded (filterData fractionRows initialFilters)).domestic
        = JSNum.fin (5404319552844595 / 9007199254740992 : ℚ)
    ∧ sumValuesRounded ((filterData fractionRows initialFilters).filter
          (fun d => decide (d.sector = "domestic".toList)))
        = JSNum.fin (1351079888211149 / 2251799813685248 : ℚ)
    ∧ totalRounded (processTimeSeriesDataRounded (filterData fractionRows initialFilters)).domestic
        ≠ sumValuesRounded ((filterData fractionRows initialFilters).filter
          (fun d => decide (d.sector = "domestic".toList))) := by
  have hf : filterData fractionRows initialFilters = fractionRows := by decide
  have hy : yearsOf fractionRows = ["2020".toList, "2021".toList] := by decide
  have h2020 : fractionRows.filter (fun d =>
      decide (d.year = "2020".toList ∧ d.sector = "domestic".toList)) = [⟨"Johor".toList, "domestic".toList, "2020".toList, "0.1".toList⟩] := by decide
  have h2021 : fractionRows.filter (fun d =>
      decide (d.year = "2021".toList ∧ d.sector = "domestic".toList)) = [⟨"Johor".toList, "domestic".toList, "2021".toList, "0.2".toList⟩, ⟨"Johor".toList, "domestic".toList, "2021".toList, "0.3".toList⟩] := by decide
  have hdom : fractionRows.filter (fun d => decide (d.sector = "domestic".toList))
      = [⟨"Johor".toList, "domestic".toList, "2020".toList, "0.1".toList⟩, ⟨"Johor".toList, "domestic".toList, "2021".toList, "0.2".toList⟩, ⟨"Johor".toList, "domestic".toList, "2021".toList, "0.3".toList⟩] := by decide
  have v1 : recordValueRounded ⟨"Johor".toList, "domestic".toList, "2020".toList, "0.1".toList⟩ = JSNum.fin (3602879701896397 / 36028797018963968 : ℚ) :=
    recordValueRounded_of_scan _ 1 (-1) (1 / 10) _ (by decide) (by norm_num)
      roundDouble_tenth (by norm_num)
  have v2 : recordValueRounded ⟨"Johor".toList, "domestic".toList, "2021".toList, "0.2".toList⟩ = JSNum.fin (3602879701896397 / 18014398509481984 : ℚ) :=
    recordValueRounded_of_scan _ 2 (-1) (1 / 5) _ (by decide) (by norm_num)
      roundDouble_fifth (by norm_num)
  have v3 : recordValueRounded ⟨"Johor".toList, "domestic".toList, "2021".toList, "0.3".toList⟩ = JSNum.fin (5404319552844595 / 18014398509481984 : ℚ) :=
    recordValueRounded_of_scan _ 3 (-1) (3 / 10) _ (by decide) (by norm_num)
      roundDouble_threeTenths (by norm_num)
  have a1 : JSNum.addRounded (JSNum.fin 0) (JSNum.fin (3602879701896397 / 36028797018963968 : ℚ)) = JSNum.fin (3602879701896397 / 36028797018963968 : ℚ) :=
    addRounded_eval _ _ _ _ (by norm_num) roundDouble_tenth_double
  have a2 : JSNum.addRounded (JSNum.fin 0) (JSNum.fin (3602879701896397 / 18014398509481984 : ℚ)) = JSNum.fin (3602879701896397 / 18014398509481984 : ℚ) :=
    addRounded_eval _ _ _ _ (by norm_num) roundDouble_fifth_double
  have a3 : JSNum.addRounded (JSNum.fin (3602879701896397 / 18014398509481984 : ℚ)) (JSNum.fin (5404319552844595 / 18014398509481984 : ℚ)) = JSNum.fin (1 / 2 : ℚ) :=
    addRounded_eval _ _ _ _ (by norm_num) roundDouble_half
  have a4 : JSNum.addRounded (JSNum.fin (3602879701896397 / 36028797018963968 : ℚ)) (JSNum.fin (1 / 2 : ℚ)) = JSNum.fin (5404319552844595 / 9007199254740992 : ℚ) :=
    addRounded_eval _ _ _ _ (by norm_num) roundDouble_series_total
  have a5 : JSNum.addRounded (JSNum.fin (3602879701896397 / 36028797018963968 : ℚ)) (JSNum.fin (3602879701896397 / 18014398509481984 : ℚ)) = JSNum.fin (1351079888211149 / 4503599627370496 : ℚ) :=
    addRounded_eval _ _ _ _ (by norm_num) roundDouble_first_two
  have a6 : JSNum.addRounded (JSNum.fin (1351079888211149 / 4503599627370496 : ℚ)) (JSNum.fin (5404319552844595 / 18014398509481984 : ℚ)) = JSNum.fin (1351079888211149 / 2251799813685248 : ℚ) :=
    addRounded_eval _ _ _ _ (by norm_num) roundDouble_direct_total
  have hseries : totalRounded (processTimeSeriesDataRounded fractionRows).domestic
      = JSNum.fin (5404319552844595 / 9007199254740992 : ℚ) := by
    rw [processTimeSeriesDataRounded_eq, hy]
    simp only [List.map_cons, List.map_nil, h2020, h2021, sumValuesRounded, totalRounded,
      List.foldl_cons, List.foldl_nil, v1, v2, v3, JSNum.zero_def, a1, a2, a3, a4]
  have hdirect : sumValuesRounded (fractionRows.filter
      (fun d => decide (d.sector = "domestic".toList))) = JSNum.fin (1351079888211149 / 2251799813685248 : ℚ) := by
    rw [hdom]
    simp only [sumValuesRounded, List.foldl_cons, List.foldl_nil, v1, v2, v3, JSNum.zero_def,
      a1, a5, a6]
  rw [hf]
  refine ⟨rfl, hseries, hdirect, ?_⟩
  rw [hseries, hdirect]
  intro h
  have := JSNum.fin.inj h
  norm_num at this

theorem recordValueRounded_of_nat (d : Record) (m : ℕ)
    (h : scanFloat d.value = FloatLit.dec false m 0) (hm : m ≠ 0) (hb : m ≤ 2 ^ 53) :
    recordValueRounded d = JSNum.fin (((m : ℤ) : ℤ) : ℚ) := by
  have hr : roundDouble (m : ℚ) = JSNum.fin (m : ℚ) := roundDouble_natCast m hm hb
  have h0 : (m : ℚ) ≠ 0 := by exact_mod_cast hm
  have := recordValueRounded_of_scan d m 0 (m : ℚ) (m : ℚ) h (by simp) hr h0
  simpa using this

/-- Claim C5, as amended. Conservation of totals for integer values: for every list of
rows and every filter state such that the value of every filtered row reads as an integer
and the magnitudes of the values of the filtered domestic rows add up to at most 2^53, the
domestic array of processTimeSeriesData of the filtered rows, added over the years, equals
the values of the filtered rows of sector domestic added in row order; both are the
integer sum of those values. -/
theorem processTimeSeriesData_conservation_integers (R : List Record) (fs : FilterState)
    (v : Record → ℤ)
    (hv : ∀ d ∈ filterData R fs, recordValueRounded d = JSNum.fin (v d : ℚ))
    (hb : (((filterData R fs).filter (fun d => decide (d.sector = "domestic".toList))).map
      (fun d => (v d).natAbs)).sum ≤ 2 ^ 53) :
    totalRounded (processTimeSeriesDataRounded (filterData R fs)).domestic
        = sumValuesRounded ((filterData R fs).filter
            (fun d => decide (d.sector = "domestic".toList)))
    ∧ sumValuesRounded ((filterData R fs).filter
          (fun d => decide (d.sector = "domestic".toList)))
        = JSNum.fin (((((filterData R fs).filter
            (fun d => decide (d.sector = "domestic".toList))).map v).sum : ℤ) : ℚ) := by
  obtain ⟨h1, h2⟩ := conservation_of_integers (filterData R fs) v hv hb
  exact ⟨h1.trans h2.symm, h2⟩

/-- Witness of claim C5 as amended: the rows of the scenario, values 100, 50 and 30, with
no state and no sector selected and the year range 2003 to 2022. -/
theorem processTimeSeriesData_conservation_integers_witness :
    totalRounded (processTimeSeriesDataRounded
        (filterData (scenarioRows.map ConsumptionRecord.toRecord)
          { selectedStates := [], selectedSectors := [], yearRange := (2003, 2022) })).domestic
      = sumValuesRounded ((filterData (scenarioRows.map ConsumptionRecord.toRecord)
          { selectedStates := [], selectedSectors := [], yearRange := (2003, 2022) }).filter
            (fun d => decide (d.sector = "domestic".toList))) :=
  (processTimeSeriesData_conservation_integers (scenarioRows.map ConsumptionRecord.toRecord)
    { selectedStates := [], selectedSectors := [], yearRange := (2003, 2022) } scenarioValue
    (by
      have hf : filterData (scenarioRows.map ConsumptionRecord.toRecord)
          { selectedStates := [], selectedSectors := [], yearRange := (2003, 2022) }
          = [⟨"Johor".toList, "domestic".toList, "2020".toList, "100".toList⟩,
             ⟨"Johor".toList, "domestic".toList, "2020".toList, "50".toList⟩,
             ⟨"Kedah".toList, "nondomestic".toList, "2020".toList, "30".toList⟩] := by decide
      rw [hf]
      intro d hd
      simp only [List.mem_cons, List.mem_singleton, List.not_mem_nil, or_false] at hd
      rcases hd with rfl | rfl | rfl
      · exact recordValueRounded_of_nat _ 100 (by decide) (by decide) (by decide)
      · exact recordValueRounded_of_nat _ 50 (by decide) (by decide) (by decide)
      · exact recordValueRounded_of_nat _ 30 (by decide) (by decide) (by decide))
    (by decide)).1

end Airlytic
